import Mathlib

/-!
# ASpawnerToolBase: a shallow embedding

Source: `src/unreal/SpawnerToolBase.cpp` and `src/unreal/SpawnerToolBase.h`.

Modelling conventions

* `float` values are exact rationals (`ℚ`) and their sums and differences are exact,
  where the program rounds to binary32. The statement on the countdown of the timer is
  therefore made for values that are binary32 numbers together with every intermediate
  result (`IsFloat32`), and the evaluations of the timer and of the grid fill are at
  such values; there the program's arithmetic is exact as well.
* `int` values are `Int`. The only integer
  arithmetic of the source is `CurrentSpawningIndex++` (bounded by the length of
  `SpawnableActors`) and `HowManyToSpawn - CurrentlySpawnedActors.Num()` (evaluated only
  after `Num() < HowManyToSpawn` held), so no 32-bit wrap-around can occur.
* A pointer is an `Option`: `none` is `nullptr`, `some h` is the object with handle `h`.
* `TArray` is a `List`; `operator[]` is range checked, a failed range check aborts the
  program, which is the result `none` of the functions that index `SpawnableActors`.
* The engine (world, random numbers, liveness of actors) is a `Host` record of answer
  functions. Calls to `World->SpawnActor` and to `FMath::RandRange` are numbered, the
  number of calls made so far is kept in the state, so that consecutive calls may be
  answered differently.
* The state carries a `log` of the observable actions (calls of `SpawnActor`, host spawn
  calls, effect, sound and on-screen message), appended in program order.
* The arguments of `SpawnActor(GetSpawnLocation(), GetSpawnRotation(),
  GetSpawnableActorIndex())` are evaluated left to right (C++ leaves the order open; the
  three calls only share the random-call counter).
-/

namespace SpawnerTool

/-- Engine vector `FVector`. -/
structure FVector where
  X : ℚ
  Y : ℚ
  Z : ℚ
deriving DecidableEq

/-- Engine rotator `FRotator`. -/
structure FRotator where
  Pitch : ℚ
  Yaw : ℚ
  Roll : ℚ
deriving DecidableEq

/-- Component-wise sum, `FVector::operator+`. -/
def FVector.add (a b : FVector) : FVector :=
  { X := a.X + b.X, Y := a.Y + b.Y, Z := a.Z + b.Z }

/-- Observable actions of the spawner, in the order they are appended to the log. -/
inductive Event where
  /-- Entry into `ASpawnerToolBase::SpawnActor` with its three arguments. -/
  | attempt (loc : FVector) (rot : FRotator) (idx : Int)
  /-- The call `World->SpawnActor<AActor>(cls, loc, rot, params)` and its result. -/
  | hostSpawn (cls : Nat) (loc : FVector) (rot : FRotator) (res : Option Nat)
  /-- The call `UNiagaraFunctionLibrary::SpawnSystemAtLocation`. -/
  | fx
  /-- The call `UGameplayStatics::PlaySoundAtLocation`. -/
  | sound
  /-- The call `GEngine->AddOnScreenDebugMessage` ("No spawnable actors found!"). -/
  | diagnostic
deriving DecidableEq

/-- The engine as seen by the spawner. -/
structure Host where
  /-- Whether `GetWorld()` is non-null. -/
  hasWorld : Bool
  /-- Answer of `AActor::IsActorBeingDestroyed` for the actor with the given handle. -/
  IsActorBeingDestroyed : Nat → Bool
  /-- Answer of the n-th call `World->SpawnActor<AActor>(cls, loc, rot, params)`. -/
  SpawnActor : Nat → Nat → FVector → FRotator → Option Nat
  /-- Answer of the n-th random call when it is `FMath::RandRange(float, float)`. -/
  RandRangeFloat : Nat → ℚ → ℚ → ℚ
  /-- Answer of the n-th random call when it is `FMath::RandRange(int, int)`. -/
  RandRangeInt : Nat → Int → Int → Int

/-- The properties of `ASpawnerToolBase` that the code only reads, and the transform and
bounds of the actor. `bSpawnActorsInArray`, `SpacingInArray`,
`bRandomTimeBetweenSpawnings`, `MinTimeBetweenSpawnings` and `MaxTimeBetweenSpawnings`
are used by the `.cpp` file but not declared in the header under `src/`; they are taken
as further properties. -/
structure Config where
  bRandomRotationYaw : Bool
  bRandomRotationPitch : Bool
  bRandomRotationRoll : Bool
  bRandomLocationX : Bool
  bRandomLocationY : Bool
  bRandomLocationZ : Bool
  bSpawnAllAtOnce : Bool
  bSpawnActorsInOrder : Bool
  HowManyToSpawn : Int
  TimeBetweenSpawnings : ℚ
  SpawnableActors : List (Option Nat)
  SpawningFX : Option Nat
  SpawningSound : Option Nat
  bSpawnActorsInArray : Bool
  SpacingInArray : ℚ
  bRandomTimeBetweenSpawnings : Bool
  MinTimeBetweenSpawnings : ℚ
  MaxTimeBetweenSpawnings : ℚ
  /-- Value of `GetActorLocation()`. -/
  ActorLocation : FVector
  /-- Value of `GetActorRotation()`. -/
  ActorRotation : FRotator
  /-- Value of `SpawningArea->Bounds.BoxExtent`. -/
  BoundsBoxExtent : FVector
  /-- Value of `SpawningArea->GetLocalBounds().BoxExtent`. -/
  LocalBoxExtent : FVector

/-- The fields the code writes (`bIsActive`, `CurrentSpawningTimer`,
`CurrentlySpawnedActors`, `CurrentSpawningIndex`, `bCanSpawn`), the two call counters of
the host and the log. -/
structure Spawner where
  bIsActive : Bool
  CurrentSpawningTimer : ℚ
  CurrentlySpawnedActors : List (Option Nat)
  CurrentSpawningIndex : Int
  bCanSpawn : Bool
  hostSpawnCalls : Nat
  randCalls : Nat
  log : List Event

/-- The member initialisers of the header: timer `0.0f`, no spawned actors, index `0`,
`bCanSpawn = false`; `bIsActive` is an editable property (default `true`). -/
def Spawner.initial (active : Bool) : Spawner :=
  { bIsActive := active, CurrentSpawningTimer := 0, CurrentlySpawnedActors := [],
    CurrentSpawningIndex := 0, bCanSpawn := false, hostSpawnCalls := 0, randCalls := 0,
    log := [] }

/-- Append one action to the log. -/
def Spawner.emit (s : Spawner) (e : Event) : Spawner :=
  { s with log := s.log ++ [e] }

/-- One call of `FMath::RandRange(float, float)`. -/
def randFloat (host : Host) (lo hi : ℚ) (s : Spawner) : ℚ × Spawner :=
  (host.RandRangeFloat s.randCalls lo hi, { s with randCalls := s.randCalls + 1 })

/-- One call of `FMath::RandRange(int, int)`. -/
def randInt (host : Host) (lo hi : Int) (s : Spawner) : Int × Spawner :=
  (host.RandRangeInt s.randCalls lo hi, { s with randCalls := s.randCalls + 1 })

/-- `TArray::AddUnique`: append the element unless it is already in the array. -/
def AddUnique (arr : List (Option Nat)) (a : Option Nat) : List (Option Nat) :=
  if a ∈ arr then arr else arr ++ [a]

/-- `ASpawnerToolBase::SpawnActor` (lines 129-173). -/
def SpawnActor (cfg : Config) (host : Host) (SpawnLocation : FVector)
    (SpawnRotation : FRotator) (SpawnIndex : Int) (s : Spawner) : Option Spawner :=
  let s0 := s.emit (Event.attempt SpawnLocation SpawnRotation SpawnIndex)
  if host.hasWorld then
    if cfg.SpawnableActors.length > 0 then
      if SpawnIndex < 0 then none
      else
        match cfg.SpawnableActors[SpawnIndex.toNat]? with
        | none => none
        | some none => some s0
        | some (some ActorTypeToSpawn) =>
          let NewActor :=
            host.SpawnActor s0.hostSpawnCalls ActorTypeToSpawn SpawnLocation SpawnRotation
          let s1 := { s0.emit (Event.hostSpawn ActorTypeToSpawn SpawnLocation SpawnRotation
                        NewActor) with hostSpawnCalls := s0.hostSpawnCalls + 1 }
          let s2 :=
            match NewActor with
            | some a =>
              { s1 with CurrentlySpawnedActors := AddUnique s1.CurrentlySpawnedActors (some a) }
            | none => s1
          let s3 := if cfg.SpawningFX.isSome then s2.emit Event.fx else s2
          let s4 := if cfg.SpawningSound.isSome then s3.emit Event.sound else s3
          some s4
    else
      some (s0.emit Event.diagnostic)
  else
    some s0

/-- `ASpawnerToolBase::GetSpawnLocation` (lines 175-195). -/
def GetSpawnLocation (cfg : Config) (host : Host) (s : Spawner) : FVector × Spawner :=
  let p0 : FVector × Spawner := (cfg.ActorLocation, s)
  let p1 : FVector × Spawner :=
    if cfg.bRandomLocationX then
      let r := randFloat host (-cfg.BoundsBoxExtent.X) cfg.BoundsBoxExtent.X p0.2
      ({ p0.1 with X := p0.1.X + r.1 }, r.2)
    else p0
  let p2 : FVector × Spawner :=
    if cfg.bRandomLocationY then
      let r := randFloat host (-cfg.BoundsBoxExtent.Y) cfg.BoundsBoxExtent.Y p1.2
      ({ p1.1 with Y := p1.1.Y + r.1 }, r.2)
    else p1
  let p3 : FVector × Spawner :=
    if cfg.bRandomLocationZ then
      let r := randFloat host (-cfg.BoundsBoxExtent.Z) cfg.BoundsBoxExtent.Z p2.2
      ({ p2.1 with Z := p2.1.Z + r.1 }, r.2)
    else p2
  p3

/-- `ASpawnerToolBase::GetSpawnRotation` (lines 197-217). -/
def GetSpawnRotation (cfg : Config) (host : Host) (s : Spawner) : FRotator × Spawner :=
  let p0 : FRotator × Spawner := (cfg.ActorRotation, s)
  let p1 : FRotator × Spawner :=
    if cfg.bRandomRotationYaw then
      let r := randFloat host 0 360 p0.2
      ({ p0.1 with Yaw := r.1 }, r.2)
    else p0
  let p2 : FRotator × Spawner :=
    if cfg.bRandomRotationPitch then
      let r := randFloat host 0 360 p1.2
      ({ p1.1 with Pitch := r.1 }, r.2)
    else p1
  let p3 : FRotator × Spawner :=
    if cfg.bRandomRotationRoll then
      let r := randFloat host 0 360 p2.2
      ({ p2.1 with Roll := r.1 }, r.2)
    else p2
  p3

/-- `ASpawnerToolBase::GetSpawnableActorIndex` (lines 219-240). -/
def GetSpawnableActorIndex (cfg : Config) (host : Host) (s : Spawner) : Int × Spawner :=
  if cfg.bSpawnActorsInOrder then
    let NewIndex := s.CurrentSpawningIndex
    let incremented := s.CurrentSpawningIndex + 1
    (NewIndex,
      { s with CurrentSpawningIndex :=
          if incremented ≥ (cfg.SpawnableActors.length : Int) then 0 else incremented })
  else
    randInt host 0 ((cfg.SpawnableActors.length : Int) - 1) s

/-- The loop of `CleanCurrentlySpawnedActors` (lines 246-256), from index `i` on:
`RemoveAt(i)` shifts the rest of the array down by one place, and the loop then goes on
with `i + 1`. -/
def cleanLoop (host : Host) (i : Nat) (arr : List (Option Nat)) : List (Option Nat) :=
  if h : i < arr.length then
    match arr[i] with
    | none => cleanLoop host (i + 1) (arr.eraseIdx i)
    | some a =>
      if host.IsActorBeingDestroyed a then cleanLoop host (i + 1) (arr.eraseIdx i)
      else cleanLoop host (i + 1) arr
  else arr
termination_by arr.length - i
decreasing_by
  all_goals simp_wf
  all_goals first
    | (rw [List.length_eraseIdx]; simp [h]; omega)
    | omega

/-- `ASpawnerToolBase::CleanCurrentlySpawnedActors` (lines 242-266); `Shrink()` only
releases slack memory. -/
def CleanCurrentlySpawnedActors (cfg : Config) (host : Host) (s : Spawner) :
    Bool × Spawner :=
  let s1 := { s with CurrentlySpawnedActors := cleanLoop host 0 s.CurrentlySpawnedActors }
  let ReturnValue : Bool :=
    if (s1.CurrentlySpawnedActors.length : Int) < cfg.HowManyToSpawn then true else false
  (ReturnValue, s1)

/-- The statement `SpawnActor(GetSpawnLocation(), GetSpawnRotation(),
GetSpawnableActorIndex());` of `Tick`. -/
def spawnNext (cfg : Config) (host : Host) (s : Spawner) : Option Spawner :=
  let l := GetSpawnLocation cfg host s
  let r := GetSpawnRotation cfg host l.2
  let k := GetSpawnableActorIndex cfg host r.2
  SpawnActor cfg host l.1 r.1 k.1 k.2

/-- The loop `for (int i = 0; i < HowManyToSpawn - CurrentlySpawnedActors.Num(); i++)`
of `Tick` (lines 89-92), from counter value `i` on. The bound is evaluated before every
iteration. -/
def batchLoop (cfg : Config) (host : Host) (i : Nat) (s : Spawner) : Option Spawner :=
  if (i : Int) < cfg.HowManyToSpawn - (s.CurrentlySpawnedActors.length : Int) then
    match spawnNext cfg host s with
    | none => none
    | some s1 => batchLoop cfg host (i + 1) s1
  else some s
termination_by (cfg.HowManyToSpawn - (i : Int)).toNat
decreasing_by
  simp_wf
  omega

/-- The assignment to `CurrentSpawningTimer` shared by `BeginPlay` (lines 66-73) and
`Tick` (lines 113-120). -/
def resetTimer (cfg : Config) (host : Host) (s : Spawner) : Spawner :=
  if cfg.bRandomTimeBetweenSpawnings then
    let r := randFloat host cfg.MinTimeBetweenSpawnings cfg.MaxTimeBetweenSpawnings s
    { r.2 with CurrentSpawningTimer := r.1 }
  else
    { s with CurrentSpawningTimer := cfg.TimeBetweenSpawnings }

/-- `ASpawnerToolBase::Tick` (lines 77-127). -/
def Tick (cfg : Config) (host : Host) (DeltaTime : ℚ) (s : Spawner) : Option Spawner :=
  if s.bIsActive then
    if s.bCanSpawn then
      let spawned : Option Spawner :=
        if cfg.bSpawnAllAtOnce then
          let c := CleanCurrentlySpawnedActors cfg host s
          if c.1 then batchLoop cfg host 0 c.2 else some c.2
        else
          let c := CleanCurrentlySpawnedActors cfg host s
          if c.1 then spawnNext cfg host c.2 else some c.2
      spawned.map fun s1 => { s1 with bCanSpawn := false }
    else
      if s.CurrentSpawningTimer > 0 then
        some { s with CurrentSpawningTimer := s.CurrentSpawningTimer - DeltaTime }
      else
        some { resetTimer cfg host s with bCanSpawn := true }
  else
    some s

/-- One iteration's update of `Spacing` in `SpawnActorsInArray` (lines 278-292). -/
def advanceSpacing (cfg : Config) (sp : FVector) : FVector :=
  let sp1 : FVector :=
    if sp.Y > cfg.LocalBoxExtent.Y - cfg.SpacingInArray then
      { sp with X := sp.X - cfg.SpacingInArray,
                Y := -cfg.LocalBoxExtent.Y + cfg.SpacingInArray }
    else
      { sp with Y := sp.Y + cfg.SpacingInArray }
  let sp2 : FVector :=
    if sp1.X < -cfg.LocalBoxExtent.X + cfg.SpacingInArray then
      { sp1 with Z := sp1.Z - cfg.SpacingInArray,
                 X := cfg.LocalBoxExtent.X - cfg.SpacingInArray }
    else sp1
  sp2

/-- The loop of `SpawnActorsInArray` (lines 276-300) with `n` iterations left. -/
def arrayLoop (cfg : Config) (host : Host) : Nat → FVector → Spawner → Option Spawner
  | 0, _, s => some s
  | n + 1, sp, s =>
    let sp2 := advanceSpacing cfg sp
    if sp2.Z < -cfg.LocalBoxExtent.Z + cfg.SpacingInArray then some s
    else
      let l := GetSpawnLocation cfg host s
      let r := GetSpawnRotation cfg host l.2
      let k := GetSpawnableActorIndex cfg host r.2
      match SpawnActor cfg host (l.1.add sp2) r.1 k.1 k.2 with
      | none => none
      | some s1 => arrayLoop cfg host n sp2 s1

/-- `ASpawnerToolBase::SpawnActorsInArray` (lines 269-301). -/
def SpawnActorsInArray (cfg : Config) (host : Host) (s : Spawner) : Option Spawner :=
  let Spacing : FVector :=
    { X := cfg.LocalBoxExtent.X - cfg.SpacingInArray,
      Y := -cfg.LocalBoxExtent.Y,
      Z := cfg.LocalBoxExtent.Z - cfg.SpacingInArray }
  arrayLoop cfg host cfg.HowManyToSpawn.toNat Spacing s

/-- `ASpawnerToolBase::BeginPlay` (lines 56-74). -/
def BeginPlay (cfg : Config) (host : Host) (s : Spawner) : Option Spawner :=
  let filled : Option Spawner :=
    if cfg.bSpawnActorsInArray then
      (SpawnActorsInArray cfg host s).map fun s1 => { s1 with bIsActive := false }
    else some s
  filled.map fun s1 => resetTimer cfg host s1

/-- A run of the engine after `BeginPlay`: one `Tick` per frame, each frame with its own
answers of the host and its own `DeltaTime`. -/
def runTicks (cfg : Config) : List (Host × ℚ) → Spawner → Option Spawner
  | [], s => some s
  | f :: fs, s =>
    match Tick cfg f.1 f.2 s with
    | none => none
    | some s1 => runTicks cfg fs s1

/-- Number of calls of `SpawnActor` recorded in a log. -/
def attempts (log : List Event) : Nat :=
  log.countP fun e => match e with
    | Event.attempt _ _ _ => true
    | _ => false

/-- Number of calls of `World->SpawnActor` recorded in a log. -/
def hostSpawns (log : List Event) : Nat :=
  log.countP fun e => match e with
    | Event.hostSpawn _ _ _ _ => true
    | _ => false

/-- Number of on-screen messages recorded in a log. -/
def diagnostics (log : List Event) : Nat :=
  log.countP fun e => decide (e = Event.diagnostic)

/-- Number of visual effects and sounds recorded in a log. -/
def effects (log : List Event) : Nat :=
  log.countP fun e => decide (e = Event.fx) || decide (e = Event.sound)

/-- An entry of `CurrentlySpawnedActors` that the loop of `CleanCurrentlySpawnedActors`
removes when it looks at it: a null pointer or an actor being destroyed. -/
def isStale (host : Host) : Option Nat → Bool
  | none => true
  | some a => host.IsActorBeingDestroyed a

/-- Two states that differ at most in the counter of random calls. -/
def EqUpToRand (s t : Spawner) : Prop :=
  t.bIsActive = s.bIsActive ∧ t.CurrentSpawningTimer = s.CurrentSpawningTimer ∧
  t.CurrentlySpawnedActors = s.CurrentlySpawnedActors ∧
  t.CurrentSpawningIndex = s.CurrentSpawningIndex ∧ t.bCanSpawn = s.bCanSpawn ∧
  t.hostSpawnCalls = s.hostSpawnCalls ∧ t.log = s.log


/-- The round-robin cursor is a valid index of `SpawnableActors` (and `0` when the list
is empty). -/
def IndexOk (cfg : Config) (s : Spawner) : Prop :=
  0 ≤ s.CurrentSpawningIndex ∧
    s.CurrentSpawningIndex < max 1 (cfg.SpawnableActors.length : Int)

/-- The defaults of the header and of the constructor: every flag off except
`bIsActive` and `bSpawnActorsInOrder`, capacity 1, interval 1 s, box extent
(100, 100, 100), nothing to spawn, no effect, no sound. -/
def defaultConfig : Config where
  bRandomRotationYaw := false
  bRandomRotationPitch := false
  bRandomRotationRoll := false
  bRandomLocationX := false
  bRandomLocationY := false
  bRandomLocationZ := false
  bSpawnAllAtOnce := false
  bSpawnActorsInOrder := true
  HowManyToSpawn := 1
  TimeBetweenSpawnings := 1
  SpawnableActors := []
  SpawningFX := none
  SpawningSound := none
  bSpawnActorsInArray := false
  SpacingInArray := 50
  bRandomTimeBetweenSpawnings := false
  MinTimeBetweenSpawnings := 0
  MaxTimeBetweenSpawnings := 0
  ActorLocation := { X := 0, Y := 0, Z := 0 }
  ActorRotation := { Pitch := 0, Yaw := 0, Roll := 0 }
  BoundsBoxExtent := { X := 100, Y := 100, Z := 100 }
  LocalBoxExtent := { X := 100, Y := 100, Z := 100 }

/-- A host with a world that accepts every spawn and hands out the call number as the
handle of the new actor; the actors listed in `dying` are being destroyed. -/
def acceptingHost (dying : List Nat) : Host where
  hasWorld := true
  IsActorBeingDestroyed := fun a => decide (a ∈ dying)
  SpawnActor := fun n _ _ _ => some n
  RandRangeFloat := fun _ lo _ => lo
  RandRangeInt := fun _ lo _ => lo

/-- A host with a world that refuses every spawn. -/
def refusingHost : Host where
  hasWorld := true
  IsActorBeingDestroyed := fun _ => false
  SpawnActor := fun _ _ _ _ => none
  RandRangeFloat := fun _ lo _ => lo
  RandRangeInt := fun _ lo _ => lo

/-- Batch mode, capacity 5, one spawnable class. -/
def batchConfig : Config :=
  { defaultConfig with bSpawnAllAtOnce := true, HowManyToSpawn := 5,
                       SpawnableActors := [some 7] }

/-- A fresh, active spawner whose timing gate has just opened. -/
def readyState : Spawner :=
  { Spawner.initial true with bCanSpawn := true }

/-- A fresh, active spawner tracking the four actors A = 1, B = 2, C = 3, D = 4. -/
def fourTracked : Spawner :=
  { Spawner.initial true with CurrentlySpawnedActors := [some 1, some 2, some 3, some 4] }

/-- Fixed interval of 2 s, everything else as in the header. -/
def twoSecondConfig : Config :=
  { defaultConfig with TimeBetweenSpawnings := 2 }

/-- Three spawnable classes, the second one unset. -/
def threeClassConfig : Config :=
  { defaultConfig with SpawnableActors := [some 7, none, some 9] }

/-- The state after `k` calls of `GetSpawnableActorIndex`. -/
def afterIndexCalls (cfg : Config) (host : Host) : Nat → Spawner → Spawner
  | 0, s => s
  | k + 1, s => (GetSpawnableActorIndex cfg host (afterIndexCalls cfg host k s)).2

/-- The origin. -/
def zeroVector : FVector := { X := 0, Y := 0, Z := 0 }

/-- The zero rotation. -/
def zeroRotator : FRotator := { Pitch := 0, Yaw := 0, Roll := 0 }

/-- Capacity 1 and one spawnable class, everything else as in the header. -/
def oneClassConfig : Config :=
  { defaultConfig with SpawnableActors := [some 7] }

/-- The state that the batch step of `batchConfig` on `readyState` with an accepting host
ends in: three calls of `SpawnActor`, three tracked actors, gate closed, still active. -/
def batchStepResult : Spawner where
  bIsActive := true
  CurrentSpawningTimer := 0
  CurrentlySpawnedActors := [some 0, some 1, some 2]
  CurrentSpawningIndex := 0
  bCanSpawn := false
  hostSpawnCalls := 3
  randCalls := 0
  log := [Event.attempt zeroVector zeroRotator 0,
          Event.hostSpawn 7 zeroVector zeroRotator (some 0),
          Event.attempt zeroVector zeroRotator 0,
          Event.hostSpawn 7 zeroVector zeroRotator (some 1),
          Event.attempt zeroVector zeroRotator 0,
          Event.hostSpawn 7 zeroVector zeroRotator (some 2)]

/-- The state that the trickle step of `oneClassConfig` on `readyState` with an accepting
host ends in. -/
def trickleStepResult : Spawner where
  bIsActive := true
  CurrentSpawningTimer := 0
  CurrentlySpawnedActors := [some 0]
  CurrentSpawningIndex := 0
  bCanSpawn := false
  hostSpawnCalls := 1
  randCalls := 0
  log := [Event.attempt zeroVector zeroRotator 0,
          Event.hostSpawn 7 zeroVector zeroRotator (some 0)]

/-- One spawnable class, a visual effect and a sound, everything else as in the header. -/
def effectConfig : Config :=
  { defaultConfig with SpawnableActors := [some 7], SpawningFX := some 1,
                       SpawningSound := some 2 }

/-- Grid fill at activation with the header defaults: capacity 1, box extent
(100, 100, 100), spacing 50, one spawnable class. -/
def gridConfig : Config :=
  { defaultConfig with bSpawnActorsInArray := true, SpawnableActors := [some 7] }

/-- Random offset on the X axis only, everything else as in the header. -/
def jitterXConfig : Config :=
  { defaultConfig with bRandomLocationX := true }

/-- The random source answers every request for a number of the range `[lo, hi]` with a
number of that range. -/
def RandInRange (host : Host) : Prop :=
  ∀ (n : Nat) (lo hi : ℚ), lo ≤ hi →
    lo ≤ host.RandRangeFloat n lo hi ∧ host.RandRangeFloat n lo hi ≤ hi

/-- The values of `Spacing` at the calls of `SpawnActor` made by the loop of
`SpawnActorsInArray` with `n` iterations left: the loop of `arrayLoop` without the
calls. -/
def gridOffsets (cfg : Config) : Nat → FVector → List FVector
  | 0, _ => []
  | n + 1, sp =>
    let sp2 := advanceSpacing cfg sp
    if sp2.Z < -cfg.LocalBoxExtent.Z + cfg.SpacingInArray then []
    else sp2 :: gridOffsets cfg n sp2

/-- The value of `Spacing` before the loop of `SpawnActorsInArray` (lines 271-274). -/
def initialSpacing (cfg : Config) : FVector :=
  { X := cfg.LocalBoxExtent.X - cfg.SpacingInArray,
    Y := -cfg.LocalBoxExtent.Y,
    Z := cfg.LocalBoxExtent.Z - cfg.SpacingInArray }

/-- The locations passed to `SpawnActor`, in the order of the calls recorded in a log. -/
def attemptLocations (log : List Event) : List FVector :=
  log.filterMap fun e => match e with
    | Event.attempt loc _ _ => some loc
    | _ => none

/-- One row of the grid of a box of extent (100, 100, 100) with spacing 50: the four Y
offsets at given X and Z. -/
def gridRow (x z : ℚ) : List FVector :=
  [{ X := x, Y := -50, Z := z }, { X := x, Y := 0, Z := z },
   { X := x, Y := 50, Z := z }, { X := x, Y := 100, Z := z }]

/-- One layer of that grid: the three rows at given Z. -/
def gridLayer (z : ℚ) : List FVector :=
  gridRow 50 z ++ gridRow 0 z ++ gridRow (-50) z

/-- The 36 offsets of that grid: three layers. -/
def grid36 : List FVector :=
  gridLayer 50 ++ gridLayer 0 ++ gridLayer (-50)

/-- The value of `Spacing` after `j` iterations of the loop of `SpawnActorsInArray` that
did not leave the loop. -/
def spacingAt (cfg : Config) : Nat → FVector → FVector
  | 0, sp => sp
  | j + 1, sp => spacingAt cfg j (advanceSpacing cfg sp)

/-- Grid fill with capacity 8 in the default box. -/
def gridConfig8 : Config :=
  { defaultConfig with bSpawnActorsInArray := true, SpawnableActors := [some 7],
                       HowManyToSpawn := 8 }

/-- Grid fill with capacity 1 in a box of extent (100, 10, 100) with spacing 50. -/
def flatGridConfig : Config :=
  { defaultConfig with bSpawnActorsInArray := true, SpawnableActors := [some 7],
                       LocalBoxExtent := { X := 100, Y := 10, Z := 100 } }

/-- Grid fill with capacity 40 in the default box. -/
def gridConfig40 : Config :=
  { defaultConfig with bSpawnActorsInArray := true, SpawnableActors := [some 7],
                       HowManyToSpawn := 40 }

/-- What the loop of `CleanCurrentlySpawnedActors` makes of the part of the array it has
not visited yet: a stale entry is removed and the entry after it is kept without being
looked at. -/
def cleanScan (host : Host) : List (Option Nat) → List (Option Nat)
  | [] => []
  | [a] => if isStale host a then [] else [a]
  | a :: b :: r =>
    if isStale host a then b :: cleanScan host r else a :: cleanScan host (b :: r)

/-- The index chosen by `GetSpawnableActorIndex` will be valid: in order mode the cursor
is valid, in random mode the random source answers within the requested range. -/
def IndexChoiceOk (cfg : Config) (host : Host) (s : Spawner) : Prop :=
  if cfg.bSpawnActorsInOrder = true then IndexOk cfg s
  else ∀ (n : Nat) (lo hi : Int), lo ≤ hi →
    lo ≤ host.RandRangeInt n lo hi ∧ host.RandRangeInt n lo hi ≤ hi

/-- From call number `base` on, the host accepts every spawn and returns an actor that is
not in `tracked` and that no other call from `base` on returns. -/
def FreshHost (host : Host) (base : Nat) (tracked : List (Option Nat)) : Prop :=
  ∀ (n : Nat), base ≤ n → ∀ (cls : Nat) (loc : FVector) (rot : FRotator),
    ∃ a, host.SpawnActor n cls loc rot = some a ∧ some a ∉ tracked ∧
      ∀ (m : Nat), base ≤ m → m ≠ n → ∀ (cls2 : Nat) (loc2 : FVector) (rot2 : FRotator),
        host.SpawnActor m cls2 loc2 rot2 ≠ some a

/-- Every tracked actor was tracked at the start or was returned by a host call made
since call number `base`. -/
def TrackedSince (host : Host) (base : Nat) (tracked : List (Option Nat))
    (s : Spawner) : Prop :=
  base ≤ s.hostSpawnCalls ∧
  ∀ x ∈ s.CurrentlySpawnedActors, x ∈ tracked ∨
    ∃ (m : Nat) (cls : Nat) (loc : FVector) (rot : FRotator),
      base ≤ m ∧ m < s.hostSpawnCalls ∧ host.SpawnActor m cls loc rot = x

/-- A number of the IEEE 754 binary32 format of `float`: `m * 2 ^ e` with an integer
`m`, `|m| < 2 ^ 24`, and `-149 ≤ e ≤ 104`. When the operands and the exact result of a
sum or difference are such numbers, the program computes that result without
rounding. -/
def IsFloat32 (x : ℚ) : Prop :=
  ∃ (m e : Int), |m| < 2 ^ 24 ∧ -149 ≤ e ∧ e ≤ 104 ∧ x = m * (2 : ℚ) ^ e

/-! ## Auxiliary facts -/

theorem cleanLoop_length_le (host : Host) (i : Nat) (arr : List (Option Nat)) :
    (cleanLoop host i arr).length ≤ arr.length := by
  induction i, arr using cleanLoop.induct host with
  | case1 i arr h hnone ih =>
    rw [cleanLoop]; simp only [h, dite_true, hnone]
    have := List.length_eraseIdx_le arr i
    omega
  | case2 i arr h a hsome hd ih =>
    rw [cleanLoop]; simp only [h, dite_true, hsome, hd, if_true]
    have := List.length_eraseIdx_le arr i
    omega
  | case3 i arr h a hsome hd ih =>
    rw [cleanLoop]; simp only [h, dite_true, hsome, hd]
    simpa using ih
  | case4 i arr h =>
    rw [cleanLoop]; simp [h]

theorem GetSpawnLocation_frame (cfg : Config) (host : Host) (s : Spawner) :
    EqUpToRand s (GetSpawnLocation cfg host s).2 := by
  unfold GetSpawnLocation EqUpToRand randFloat
  split_ifs <;> simp

theorem GetSpawnRotation_frame (cfg : Config) (host : Host) (s : Spawner) :
    EqUpToRand s (GetSpawnRotation cfg host s).2 := by
  unfold GetSpawnRotation EqUpToRand randFloat
  split_ifs <;> simp

theorem GetSpawnableActorIndex_frame (cfg : Config) (host : Host) (s : Spawner) :
    let t := (GetSpawnableActorIndex cfg host s).2
    t.bIsActive = s.bIsActive ∧ t.CurrentSpawningTimer = s.CurrentSpawningTimer ∧
    t.CurrentlySpawnedActors = s.CurrentlySpawnedActors ∧ t.bCanSpawn = s.bCanSpawn ∧
    t.hostSpawnCalls = s.hostSpawnCalls ∧ t.log = s.log := by
  unfold GetSpawnableActorIndex randInt
  split_ifs <;> simp

theorem AddUnique_length (arr : List (Option Nat)) (a : Option Nat) :
    arr.length ≤ (AddUnique arr a).length ∧ (AddUnique arr a).length ≤ arr.length + 1 := by
  unfold AddUnique
  split_ifs <;> simp

@[simp]
theorem attempts_append (l m : List Event) :
    attempts (l ++ m) = attempts l + attempts m := by
  simp [attempts]

@[simp]
theorem hostSpawns_append (l m : List Event) :
    hostSpawns (l ++ m) = hostSpawns l + hostSpawns m := by
  simp [hostSpawns]

@[simp]
theorem diagnostics_append (l m : List Event) :
    diagnostics (l ++ m) = diagnostics l + diagnostics m := by
  simp [diagnostics]

@[simp]
theorem effects_append (l m : List Event) :
    effects (l ++ m) = effects l + effects m := by
  simp [effects]

/-- What one call of `SpawnActor` can change. -/
theorem SpawnActor_frame (cfg : Config) (host : Host) (loc : FVector) (rot : FRotator)
    (idx : Int) (s t : Spawner) (h : SpawnActor cfg host loc rot idx s = some t) :
    t.bIsActive = s.bIsActive ∧ t.CurrentSpawningTimer = s.CurrentSpawningTimer ∧
    t.CurrentSpawningIndex = s.CurrentSpawningIndex ∧ t.bCanSpawn = s.bCanSpawn ∧
    s.CurrentlySpawnedActors.length ≤ t.CurrentlySpawnedActors.length ∧
    t.CurrentlySpawnedActors.length ≤ s.CurrentlySpawnedActors.length + 1 ∧
    attempts t.log = attempts s.log + 1 ∧
    hostSpawns s.log ≤ hostSpawns t.log ∧ hostSpawns t.log ≤ hostSpawns s.log + 1 := by
  unfold SpawnActor at h
  by_cases hw : host.hasWorld = true
  · by_cases hn : cfg.SpawnableActors.length > 0
    · by_cases hneg : idx < 0
      · simp [hw, hn, hneg] at h
      · cases hget : cfg.SpawnableActors[idx.toNat]? with
        | none => simp [hw, hn, hneg, hget] at h
        | some cls =>
          cases cls with
          | none =>
            simp [hw, hn, hneg, hget] at h
            subst h
            simp [Spawner.emit, attempts, hostSpawns]
          | some c =>
            simp only [hw, hn, hneg, hget, if_true, if_false] at h
            simp only [Option.some.injEq] at h
            subst h
            have hu := AddUnique_length s.CurrentlySpawnedActors
            cases host.SpawnActor (s.emit (Event.attempt loc rot idx)).hostSpawnCalls c loc rot <;>
              cases cfg.SpawningFX <;> cases cfg.SpawningSound <;>
              simp [Spawner.emit, attempts, hostSpawns, hu]
    · simp [hw, hn] at h
      subst h
      simp [Spawner.emit, attempts, hostSpawns]
  · simp [hw] at h
    subst h
    simp [Spawner.emit, attempts, hostSpawns]

/-- What the statement `SpawnActor(GetSpawnLocation(), ...)` can change. -/
theorem spawnNext_frame (cfg : Config) (host : Host) (s t : Spawner)
    (h : spawnNext cfg host s = some t) :
    t.bIsActive = s.bIsActive ∧ t.CurrentSpawningTimer = s.CurrentSpawningTimer ∧
    t.bCanSpawn = s.bCanSpawn ∧
    s.CurrentlySpawnedActors.length ≤ t.CurrentlySpawnedActors.length ∧
    t.CurrentlySpawnedActors.length ≤ s.CurrentlySpawnedActors.length + 1 ∧
    attempts t.log = attempts s.log + 1 ∧
    hostSpawns s.log ≤ hostSpawns t.log ∧ hostSpawns t.log ≤ hostSpawns s.log + 1 := by
  unfold spawnNext at h
  have hl := GetSpawnLocation_frame cfg host s
  have hr := GetSpawnRotation_frame cfg host (GetSpawnLocation cfg host s).2
  have hk := GetSpawnableActorIndex_frame cfg host
    (GetSpawnRotation cfg host (GetSpawnLocation cfg host s).2).2
  have hs := SpawnActor_frame _ _ _ _ _ _ _ h
  unfold EqUpToRand at hl hr
  simp only at hk
  obtain ⟨l1, l2, l3, -, l5, l6, l7⟩ := hl
  obtain ⟨r1, r2, r3, -, r5, r6, r7⟩ := hr
  obtain ⟨k1, k2, k3, k5, k6, k7⟩ := hk
  obtain ⟨a1, a2, -, a4, a5, a6, a7, a8, a9⟩ := hs
  rw [k7, r7, l7] at a7 a8 a9
  rw [k3, r3, l3] at a5 a6
  refine ⟨?_, ?_, ?_, a5, a6, a7, a8, a9⟩
  · rw [a1, k1, r1, l1]
  · rw [a2, k2, r2, l2]
  · rw [a4, k5, r5, l5]

/-- What the batch loop of `Tick` can change. -/
theorem batchLoop_frame (cfg : Config) (host : Host) (i : Nat) (s t : Spawner)
    (h : batchLoop cfg host i s = some t) :
    t.bIsActive = s.bIsActive ∧ t.CurrentSpawningTimer = s.CurrentSpawningTimer ∧
    t.bCanSpawn = s.bCanSpawn ∧
    s.CurrentlySpawnedActors.length ≤ t.CurrentlySpawnedActors.length ∧
    attempts s.log ≤ attempts t.log ∧
    ((s.CurrentlySpawnedActors.length : Int) ≤ cfg.HowManyToSpawn →
      (t.CurrentlySpawnedActors.length : Int) ≤ cfg.HowManyToSpawn) := by
  induction i, s using batchLoop.induct cfg host with
  | case1 i s hlt hnone =>
    rw [batchLoop] at h
    simp [hlt, hnone] at h
  | case2 i s hlt s1 hsome ih =>
    rw [batchLoop] at h
    simp only [hlt, if_true, hsome] at h
    obtain ⟨b1, b2, b3, b4, b5, b6⟩ := ih h
    obtain ⟨n1, n2, n3, n4, n5, n6, -, -⟩ := spawnNext_frame cfg host s s1 hsome
    refine ⟨by rw [b1, n1], by rw [b2, n2], by rw [b3, n3], by omega, by omega, ?_⟩
    intro _
    apply b6
    omega
  | case3 i s hge =>
    rw [batchLoop] at h
    simp only [hge, if_false, Option.some.injEq] at h
    subst h
    simp

/-- What the loop of `SpawnActorsInArray` can change. -/
theorem arrayLoop_frame (cfg : Config) (host : Host) (n : Nat) (sp : FVector)
    (s t : Spawner) (h : arrayLoop cfg host n sp s = some t) :
    t.bIsActive = s.bIsActive ∧ t.CurrentSpawningTimer = s.CurrentSpawningTimer ∧
    t.bCanSpawn = s.bCanSpawn ∧
    t.CurrentlySpawnedActors.length ≤ s.CurrentlySpawnedActors.length + n ∧
    attempts t.log ≤ attempts s.log + n := by
  induction n generalizing sp s with
  | zero =>
    simp only [arrayLoop, Option.some.injEq] at h
    subst h
    simp
  | succ n ih =>
    simp only [arrayLoop] at h
    split_ifs at h with hz
    · simp only [Option.some.injEq] at h
      subst h
      simp
    · split at h
      · simp at h
      · rename_i s1 hs1
        obtain ⟨b1, b2, b3, b4, b5⟩ := ih _ _ h
        have hl := GetSpawnLocation_frame cfg host s
        have hr := GetSpawnRotation_frame cfg host (GetSpawnLocation cfg host s).2
        have hk := GetSpawnableActorIndex_frame cfg host
          (GetSpawnRotation cfg host (GetSpawnLocation cfg host s).2).2
        have hs := SpawnActor_frame _ _ _ _ _ _ _ hs1
        unfold EqUpToRand at hl hr
        simp only at hk
        obtain ⟨l1, l2, l3, -, l5, l6, l7⟩ := hl
        obtain ⟨r1, r2, r3, -, r5, r6, r7⟩ := hr
        obtain ⟨k1, k2, k3, k5, k6, k7⟩ := hk
        obtain ⟨a1, a2, -, a4, a5, a6, a7, a8, a9⟩ := hs
        rw [k7, r7, l7] at a7 a8 a9
        rw [k3, r3, l3] at a5 a6
        refine ⟨?_, ?_, ?_, by omega, by omega⟩
        · rw [b1, a1, k1, r1, l1]
        · rw [b2, a2, k2, r2, l2]
        · rw [b3, a4, k5, r5, l5]

theorem CleanCurrentlySpawnedActors_frame (cfg : Config) (host : Host) (s : Spawner) :
    let t := (CleanCurrentlySpawnedActors cfg host s).2
    t.bIsActive = s.bIsActive ∧ t.CurrentSpawningTimer = s.CurrentSpawningTimer ∧
    t.CurrentSpawningIndex = s.CurrentSpawningIndex ∧ t.bCanSpawn = s.bCanSpawn ∧
    t.log = s.log ∧
    t.CurrentlySpawnedActors = cleanLoop host 0 s.CurrentlySpawnedActors ∧
    t.CurrentlySpawnedActors.length ≤ s.CurrentlySpawnedActors.length := by
  simp [CleanCurrentlySpawnedActors, cleanLoop_length_le]

theorem CleanCurrentlySpawnedActors_true (cfg : Config) (host : Host) (s : Spawner) :
    (CleanCurrentlySpawnedActors cfg host s).1 = true ↔
      ((CleanCurrentlySpawnedActors cfg host s).2.CurrentlySpawnedActors.length : Int)
        < cfg.HowManyToSpawn := by
  simp [CleanCurrentlySpawnedActors]

theorem resetTimer_frame (cfg : Config) (host : Host) (s : Spawner) :
    let t := resetTimer cfg host s
    t.bIsActive = s.bIsActive ∧ t.CurrentlySpawnedActors = s.CurrentlySpawnedActors ∧
    t.CurrentSpawningIndex = s.CurrentSpawningIndex ∧ t.bCanSpawn = s.bCanSpawn ∧
    t.log = s.log := by
  unfold resetTimer randFloat
  split_ifs <;> simp

theorem Tick_inactive (cfg : Config) (host : Host) (dt : ℚ) (s : Spawner)
    (hact : s.bIsActive = false) : Tick cfg host dt s = some s := by
  simp [Tick, hact]

theorem Tick_waiting (cfg : Config) (host : Host) (dt : ℚ) (s : Spawner)
    (hact : s.bIsActive = true) (hcan : s.bCanSpawn = false) :
    Tick cfg host dt s =
      if s.CurrentSpawningTimer > 0 then
        some { s with CurrentSpawningTimer := s.CurrentSpawningTimer - dt }
      else some { resetTimer cfg host s with bCanSpawn := true } := by
  simp [Tick, hact, hcan]

theorem Tick_batch (cfg : Config) (host : Host) (dt : ℚ) (s : Spawner)
    (hact : s.bIsActive = true) (hcan : s.bCanSpawn = true)
    (hbatch : cfg.bSpawnAllAtOnce = true) :
    Tick cfg host dt s =
      (if (CleanCurrentlySpawnedActors cfg host s).1 = true then
        batchLoop cfg host 0 (CleanCurrentlySpawnedActors cfg host s).2
      else some (CleanCurrentlySpawnedActors cfg host s).2).map
        fun s1 => { s1 with bCanSpawn := false } := by
  simp [Tick, hact, hcan, hbatch]

theorem Tick_trickle (cfg : Config) (host : Host) (dt : ℚ) (s : Spawner)
    (hact : s.bIsActive = true) (hcan : s.bCanSpawn = true)
    (hbatch : cfg.bSpawnAllAtOnce = false) :
    Tick cfg host dt s =
      (if (CleanCurrentlySpawnedActors cfg host s).1 = true then
        spawnNext cfg host (CleanCurrentlySpawnedActors cfg host s).2
      else some (CleanCurrentlySpawnedActors cfg host s).2).map
        fun s1 => { s1 with bCanSpawn := false } := by
  simp [Tick, hact, hcan, hbatch]

/-- A step keeps the number of tracked actors within the capacity. -/
theorem Tick_length_le (cfg : Config) (host : Host) (dt : ℚ) (s t : Spawner)
    (h : Tick cfg host dt s = some t)
    (hinv : (s.CurrentlySpawnedActors.length : Int) ≤ cfg.HowManyToSpawn) :
    (t.CurrentlySpawnedActors.length : Int) ≤ cfg.HowManyToSpawn := by
  have hc := CleanCurrentlySpawnedActors_frame cfg host s
  have hct := CleanCurrentlySpawnedActors_true cfg host s
  simp only at hc
  obtain ⟨-, -, -, -, -, -, c7⟩ := hc
  cases hact : s.bIsActive with
  | false =>
    rw [Tick_inactive cfg host dt s hact, Option.some.injEq] at h
    subst h
    exact hinv
  | true =>
    cases hcan : s.bCanSpawn with
    | false =>
      rw [Tick_waiting cfg host dt s hact hcan] at h
      split_ifs at h
      · simp only [Option.some.injEq] at h
        subst h
        exact hinv
      · simp only [Option.some.injEq] at h
        subst h
        have := (resetTimer_frame cfg host s).2.1
        simp only at this ⊢
        rw [this]
        exact hinv
    | true =>
      cases hbatch : cfg.bSpawnAllAtOnce with
      | true =>
        rw [Tick_batch cfg host dt s hact hcan hbatch] at h
        simp only [Option.map_eq_some'] at h
        obtain ⟨u, hu, rfl⟩ := h
        split_ifs at hu with hok
        · obtain ⟨-, -, -, -, -, b6⟩ := batchLoop_frame cfg host 0 _ u hu
          exact b6 (by omega)
        · simp only [Option.some.injEq] at hu
          subst hu
          simp only
          omega
      | false =>
        rw [Tick_trickle cfg host dt s hact hcan hbatch] at h
        simp only [Option.map_eq_some'] at h
        obtain ⟨u, hu, rfl⟩ := h
        split_ifs at hu with hok
        · obtain ⟨-, -, -, -, n5, -⟩ := spawnNext_frame cfg host _ u hu
          have := hct.mp hok
          simp only
          omega
        · simp only [Option.some.injEq] at hu
          subst hu
          simp only
          omega

theorem runTicks_length_le (cfg : Config) (frames : List (Host × ℚ)) (s t : Spawner)
    (h : runTicks cfg frames s = some t)
    (hinv : (s.CurrentlySpawnedActors.length : Int) ≤ cfg.HowManyToSpawn) :
    (t.CurrentlySpawnedActors.length : Int) ≤ cfg.HowManyToSpawn := by
  induction frames generalizing s with
  | nil =>
    simp only [runTicks, Option.some.injEq] at h
    subst h
    exact hinv
  | cons f fs ih =>
    simp only [runTicks] at h
    split at h
    · simp at h
    · rename_i s1 hs1
      exact ih s1 h (Tick_length_le cfg f.1 f.2 s s1 hs1 hinv)

theorem BeginPlay_length_le (cfg : Config) (host : Host) (s t : Spawner)
    (hC : 0 ≤ cfg.HowManyToSpawn) (hempty : s.CurrentlySpawnedActors = [])
    (h : BeginPlay cfg host s = some t) :
    (t.CurrentlySpawnedActors.length : Int) ≤ cfg.HowManyToSpawn := by
  unfold BeginPlay at h
  simp only [Option.map_eq_some'] at h
  obtain ⟨u, hu, rfl⟩ := h
  rw [(resetTimer_frame cfg host u).2.1]
  split_ifs at hu with hgrid
  · simp only [Option.map_eq_some'] at hu
    obtain ⟨v, hv, rfl⟩ := hu
    unfold SpawnActorsInArray at hv
    obtain ⟨-, -, -, a4, -⟩ := arrayLoop_frame _ _ _ _ _ _ hv
    simp only [hempty, List.length_nil, zero_add] at a4
    simp only
    omega
  · simp only [Option.some.injEq] at hu
    subst hu
    simp [hempty, hC]

theorem SpawnActor_isSome (cfg : Config) (host : Host) (loc : FVector) (rot : FRotator)
    (idx : Int) (s : Spawner) (h0 : 0 ≤ idx)
    (h1 : idx < max 1 (cfg.SpawnableActors.length : Int)) :
    ∃ t, SpawnActor cfg host loc rot idx s = some t := by
  unfold SpawnActor
  by_cases hw : host.hasWorld = true
  · by_cases hn : cfg.SpawnableActors.length > 0
    · have hlt : idx.toNat < cfg.SpawnableActors.length := by omega
      have hneg : ¬ idx < 0 := by omega
      cases hget : cfg.SpawnableActors[idx.toNat]? with
      | none =>
        rw [List.getElem?_eq_none_iff] at hget
        omega
      | some cls =>
        cases cls <;> simp [hw, hn, hneg, hget]
    · simp [hw, hn]
  · simp [hw]

theorem GetSpawnableActorIndex_inOrder (cfg : Config) (host : Host) (s : Spawner)
    (hord : cfg.bSpawnActorsInOrder = true) (hok : IndexOk cfg s) :
    (GetSpawnableActorIndex cfg host s).1 = s.CurrentSpawningIndex ∧
    IndexOk cfg (GetSpawnableActorIndex cfg host s).2 := by
  unfold IndexOk at *
  simp only [GetSpawnableActorIndex, hord, if_true, true_and]
  split_ifs <;> omega

theorem spawnNext_isSome (cfg : Config) (host : Host) (s : Spawner)
    (hord : cfg.bSpawnActorsInOrder = true) (hok : IndexOk cfg s) :
    ∃ t, spawnNext cfg host s = some t ∧ IndexOk cfg t := by
  have hl := GetSpawnLocation_frame cfg host s
  have hr := GetSpawnRotation_frame cfg host (GetSpawnLocation cfg host s).2
  unfold EqUpToRand at hl hr
  have hok2 : IndexOk cfg (GetSpawnRotation cfg host (GetSpawnLocation cfg host s).2).2 := by
    unfold IndexOk at *
    rw [hr.2.2.2.1, hl.2.2.2.1]
    exact hok
  obtain ⟨k1, k2⟩ := GetSpawnableActorIndex_inOrder cfg host _ hord hok2
  unfold spawnNext
  simp only
  obtain ⟨t, ht⟩ := SpawnActor_isSome cfg host (GetSpawnLocation cfg host s).1
    (GetSpawnRotation cfg host (GetSpawnLocation cfg host s).2).1
    (GetSpawnableActorIndex cfg host (GetSpawnRotation cfg host (GetSpawnLocation cfg host s).2).2).1
    (GetSpawnableActorIndex cfg host (GetSpawnRotation cfg host (GetSpawnLocation cfg host s).2).2).2
    (by rw [k1]; exact hok2.1) (by rw [k1]; exact hok2.2)
  refine ⟨t, ht, ?_⟩
  have := (SpawnActor_frame _ _ _ _ _ _ _ ht).2.2.1
  unfold IndexOk at *
  rw [this]
  exact k2

theorem batchLoop_isSome (cfg : Config) (host : Host) (i : Nat) (s : Spawner)
    (hord : cfg.bSpawnActorsInOrder = true) (hok : IndexOk cfg s) :
    ∃ t, batchLoop cfg host i s = some t ∧ IndexOk cfg t := by
  induction i, s using batchLoop.induct cfg host with
  | case1 i s hlt hnone =>
    obtain ⟨t, ht, -⟩ := spawnNext_isSome cfg host s hord hok
    rw [ht] at hnone
    simp at hnone
  | case2 i s hlt s1 hsome ih =>
    obtain ⟨t, ht, hokt⟩ := spawnNext_isSome cfg host s hord hok
    rw [ht, Option.some.injEq] at hsome
    subst hsome
    obtain ⟨u, hu, hoku⟩ := ih hokt
    refine ⟨u, ?_, hoku⟩
    rw [batchLoop]
    simp only [hlt, if_true, ht]
    exact hu
  | case3 i s hge =>
    refine ⟨s, ?_, hok⟩
    rw [batchLoop]
    simp only [hge, if_false]

theorem arrayLoop_isSome (cfg : Config) (host : Host) (n : Nat) (sp : FVector)
    (s : Spawner) (hord : cfg.bSpawnActorsInOrder = true) (hok : IndexOk cfg s) :
    ∃ t, arrayLoop cfg host n sp s = some t ∧ IndexOk cfg t := by
  induction n generalizing sp s with
  | zero => exact ⟨s, by simp [arrayLoop], hok⟩
  | succ n ih =>
    simp only [arrayLoop]
    split_ifs with hz
    · exact ⟨s, rfl, hok⟩
    · have hl := GetSpawnLocation_frame cfg host s
      have hr := GetSpawnRotation_frame cfg host (GetSpawnLocation cfg host s).2
      unfold EqUpToRand at hl hr
      have hok2 : IndexOk cfg (GetSpawnRotation cfg host (GetSpawnLocation cfg host s).2).2 := by
        unfold IndexOk at *
        rw [hr.2.2.2.1, hl.2.2.2.1]
        exact hok
      obtain ⟨k1, k2⟩ := GetSpawnableActorIndex_inOrder cfg host _ hord hok2
      obtain ⟨t, ht⟩ := SpawnActor_isSome cfg host
        ((GetSpawnLocation cfg host s).1.add (advanceSpacing cfg sp))
        (GetSpawnRotation cfg host (GetSpawnLocation cfg host s).2).1
        (GetSpawnableActorIndex cfg host (GetSpawnRotation cfg host (GetSpawnLocation cfg host s).2).2).1
        (GetSpawnableActorIndex cfg host (GetSpawnRotation cfg host (GetSpawnLocation cfg host s).2).2).2
        (by rw [k1]; exact hok2.1) (by rw [k1]; exact hok2.2)
      have hokt : IndexOk cfg t := by
        have := (SpawnActor_frame _ _ _ _ _ _ _ ht).2.2.1
        unfold IndexOk at *
        rw [this]
        exact k2
      rw [ht]
      exact ih _ t hokt

theorem Tick_isSome (cfg : Config) (host : Host) (dt : ℚ) (s : Spawner)
    (hord : cfg.bSpawnActorsInOrder = true) (hok : IndexOk cfg s) :
    ∃ t, Tick cfg host dt s = some t ∧ IndexOk cfg t := by
  have hc := CleanCurrentlySpawnedActors_frame cfg host s
  simp only at hc
  have hokc : IndexOk cfg (CleanCurrentlySpawnedActors cfg host s).2 := by
    unfold IndexOk at *
    rw [hc.2.2.1]
    exact hok
  cases hact : s.bIsActive with
  | false => exact ⟨s, Tick_inactive cfg host dt s hact, hok⟩
  | true =>
    cases hcan : s.bCanSpawn with
    | false =>
      rw [Tick_waiting cfg host dt s hact hcan]
      split_ifs
      · exact ⟨_, rfl, hok⟩
      · refine ⟨_, rfl, ?_⟩
        have := (resetTimer_frame cfg host s).2.2.1
        unfold IndexOk at *
        simp only at this ⊢
        rw [this]
        exact hok
    | true =>
      cases hbatch : cfg.bSpawnAllAtOnce with
      | true =>
        rw [Tick_batch cfg host dt s hact hcan hbatch]
        split_ifs
        · obtain ⟨u, hu, hoku⟩ := batchLoop_isSome cfg host 0 _ hord hokc
          rw [hu]
          exact ⟨_, rfl, hoku⟩
        · exact ⟨_, rfl, hokc⟩
      | false =>
        rw [Tick_trickle cfg host dt s hact hcan hbatch]
        split_ifs
        · obtain ⟨u, hu, hoku⟩ := spawnNext_isSome cfg host _ hord hokc
          rw [hu]
          exact ⟨_, rfl, hoku⟩
        · exact ⟨_, rfl, hokc⟩

theorem runTicks_isSome (cfg : Config) (frames : List (Host × ℚ)) (s : Spawner)
    (hord : cfg.bSpawnActorsInOrder = true) (hok : IndexOk cfg s) :
    ∃ t, runTicks cfg frames s = some t ∧ IndexOk cfg t := by
  induction frames generalizing s with
  | nil => exact ⟨s, rfl, hok⟩
  | cons f fs ih =>
    obtain ⟨u, hu, hoku⟩ := Tick_isSome cfg f.1 f.2 s hord hok
    simp only [runTicks, hu]
    exact ih u hoku

theorem BeginPlay_isSome (cfg : Config) (host : Host) (s : Spawner)
    (hord : cfg.bSpawnActorsInOrder = true) (hok : IndexOk cfg s) :
    ∃ t, BeginPlay cfg host s = some t ∧ IndexOk cfg t := by
  unfold BeginPlay
  split_ifs with hgrid
  · obtain ⟨u, hu, hoku⟩ := arrayLoop_isSome cfg host cfg.HowManyToSpawn.toNat
      { X := cfg.LocalBoxExtent.X - cfg.SpacingInArray, Y := -cfg.LocalBoxExtent.Y,
        Z := cfg.LocalBoxExtent.Z - cfg.SpacingInArray } s hord hok
    refine ⟨_, by simp only [SpawnActorsInArray, hu, Option.map_some']; rfl, ?_⟩
    have := (resetTimer_frame cfg host { u with bIsActive := false }).2.2.1
    unfold IndexOk at *
    simp only at this ⊢
    rw [this]
    exact hoku
  · refine ⟨_, rfl, ?_⟩
    have := (resetTimer_frame cfg host s).2.2.1
    unfold IndexOk at *
    simp only at this ⊢
    rw [this]
    exact hok

/-- Evaluation of the batch step at capacity 5. -/
theorem batchStep_eval :
    Tick batchConfig (acceptingHost []) 0 readyState = some batchStepResult := by
  simp [Tick, readyState, Spawner.initial, batchConfig, defaultConfig, acceptingHost,
    CleanCurrentlySpawnedActors, cleanLoop, batchLoop, spawnNext, GetSpawnLocation,
    GetSpawnRotation, GetSpawnableActorIndex, SpawnActor, Spawner.emit, AddUnique,
    batchStepResult, zeroVector, zeroRotator]

/-- Evaluation of the trickle step at capacity 1. -/
theorem trickleStep_eval :
    Tick oneClassConfig (acceptingHost []) 0 readyState = some trickleStepResult := by
  simp [Tick, readyState, Spawner.initial, oneClassConfig, defaultConfig, acceptingHost,
    CleanCurrentlySpawnedActors, cleanLoop, spawnNext, GetSpawnLocation,
    GetSpawnRotation, GetSpawnableActorIndex, SpawnActor, Spawner.emit, AddUnique,
    trickleStepResult, zeroVector, zeroRotator]

/-- C1 (code defect). `CleanCurrentlySpawnedActors` does not remove every stale entry:
with `CurrentlySpawnedActors = [A, B, C, D]` and both B and C being destroyed, the loop
removes B at index 1, C slides into index 1, and the loop goes on at index 2, so C (stale)
stays: the result is `[A, C, D]`, where the claim requires `[A, D]`. -/
theorem C1_clean_keeps_stale_entry_after_removed_one :
    (CleanCurrentlySpawnedActors defaultConfig (acceptingHost [2, 3])
        fourTracked).2.CurrentlySpawnedActors = [some 1, some 3, some 4] ∧
    isStale (acceptingHost [2, 3]) (some 3) = true ∧
    fourTracked.CurrentlySpawnedActors.filter
        (fun a => !isStale (acceptingHost [2, 3]) a) = [some 1, some 4] := by
  refine ⟨?_, ?_, ?_⟩
  · simp [CleanCurrentlySpawnedActors, cleanLoop, fourTracked, Spawner.initial,
      acceptingHost]
  · simp [isStale, acceptingHost]
  · simp [fourTracked, Spawner.initial, isStale, acceptingHost, List.filter]

/-- C2. Population bound. Let the capacity `HowManyToSpawn` be at least 1 and let the
spawner start with no tracked actor. After `BeginPlay` and any sequence of `Tick`s, each
with its own host answers (spawn results, liveness reports, random numbers) and its own
`DeltaTime`, the number of tracked actors is at most the capacity, and so is the number
left by a capacity check made in that state under any liveness report. In order mode,
started with cursor 0, such a run never aborts. -/
theorem C2_population_never_exceeds_capacity (cfg : Config) (h0 : Host)
    (frames : List (Host × ℚ)) (s0 : Spawner) (hC : 1 ≤ cfg.HowManyToSpawn)
    (hempty : s0.CurrentlySpawnedActors = []) :
    (∀ s1 s, BeginPlay cfg h0 s0 = some s1 → runTicks cfg frames s1 = some s →
      (s.CurrentlySpawnedActors.length : Int) ≤ cfg.HowManyToSpawn ∧
      ∀ host, ((CleanCurrentlySpawnedActors cfg host s).2.CurrentlySpawnedActors.length : Int)
        ≤ cfg.HowManyToSpawn) ∧
    (cfg.bSpawnActorsInOrder = true → s0.CurrentSpawningIndex = 0 →
      ∃ s1 s, BeginPlay cfg h0 s0 = some s1 ∧ runTicks cfg frames s1 = some s) := by
  constructor
  · intro s1 s hb hr
    have h1 := BeginPlay_length_le cfg h0 s0 s1 (by omega) hempty hb
    have h2 := runTicks_length_le cfg frames s1 s hr h1
    refine ⟨h2, fun host => ?_⟩
    have := (CleanCurrentlySpawnedActors_frame cfg host s).2.2.2.2.2.2
    simp only at this
    omega
  · intro hord hidx
    have hok : IndexOk cfg s0 := by
      unfold IndexOk
      rw [hidx]
      omega
    obtain ⟨s1, hs1, hok1⟩ := BeginPlay_isSome cfg h0 s0 hord hok
    obtain ⟨s, hs, -⟩ := runTicks_isSome cfg frames s1 hord hok1
    exact ⟨s1, s, hs1, hs⟩

/-- Witness of C2: batch mode with capacity 5 and an accepting host, one waiting frame,
one frame that opens the gate and one frame that spawns. -/
theorem C2_population_never_exceeds_capacity_witness :
    (1 : Int) ≤ batchConfig.HowManyToSpawn ∧
    (Spawner.initial true).CurrentlySpawnedActors = [] ∧
    ((∀ s1 s, BeginPlay batchConfig (acceptingHost []) (Spawner.initial true) = some s1 →
        runTicks batchConfig [(acceptingHost [], 1), (acceptingHost [], 1),
          (acceptingHost [], 1)] s1 = some s →
        (s.CurrentlySpawnedActors.length : Int) ≤ batchConfig.HowManyToSpawn ∧
        ∀ host, ((CleanCurrentlySpawnedActors batchConfig host
          s).2.CurrentlySpawnedActors.length : Int) ≤ batchConfig.HowManyToSpawn) ∧
      (batchConfig.bSpawnActorsInOrder = true →
        (Spawner.initial true).CurrentSpawningIndex = 0 →
        ∃ s1 s, BeginPlay batchConfig (acceptingHost []) (Spawner.initial true) = some s1 ∧
          runTicks batchConfig [(acceptingHost [], 1), (acceptingHost [], 1),
            (acceptingHost [], 1)] s1 = some s)) :=
  ⟨by decide, rfl,
    C2_population_never_exceeds_capacity batchConfig (acceptingHost [])
      [(acceptingHost [], 1), (acceptingHost [], 1), (acceptingHost [], 1)]
      (Spawner.initial true) (by decide) rfl⟩

/-- C3 (code defect). A batch step with capacity 5, no tracked actor and a host that
accepts every spawn calls `SpawnActor` 3 times, not 5: the bound
`HowManyToSpawn - CurrentlySpawnedActors.Num()` is evaluated again before every
iteration and shrinks while the counter grows. Only when the host refuses every spawn
does the step make 5 calls. -/
theorem C3_batch_of_five_makes_three_attempts :
    (Tick batchConfig (acceptingHost []) 0 readyState).map
        (fun t => (attempts t.log, t.CurrentlySpawnedActors)) =
      some (3, [some 0, some 1, some 2]) ∧
    (Tick batchConfig refusingHost 0 readyState).map
        (fun t => (attempts t.log, t.CurrentlySpawnedActors)) = some (5, []) := by
  constructor
  · simp [Tick, readyState, Spawner.initial, batchConfig, defaultConfig, acceptingHost,
      CleanCurrentlySpawnedActors, cleanLoop, batchLoop, spawnNext, GetSpawnLocation,
      GetSpawnRotation, GetSpawnableActorIndex, SpawnActor, Spawner.emit, AddUnique,
      attempts]
  · simp [Tick, readyState, Spawner.initial, batchConfig, defaultConfig, refusingHost,
      CleanCurrentlySpawnedActors, cleanLoop, batchLoop, spawnNext, GetSpawnLocation,
      GetSpawnRotation, GetSpawnableActorIndex, SpawnActor, Spawner.emit, AddUnique,
      attempts]

/-- Counterexample to C4: after a batch step that made spawn attempts the spawner is
still active. -/
theorem C4_batch_step_leaves_active_flag_set :
    (Tick batchConfig (acceptingHost []) 0 readyState).map
        (fun t => (t.bIsActive, decide (0 < attempts t.log))) = some (true, true) := by
  simp [Tick, readyState, Spawner.initial, batchConfig, defaultConfig, acceptingHost,
    CleanCurrentlySpawnedActors, cleanLoop, batchLoop, spawnNext, GetSpawnLocation,
    GetSpawnRotation, GetSpawnableActorIndex, SpawnActor, Spawner.emit, AddUnique,
    attempts]

/-- C4, amended. A batch-mode step of an active spawner whose gate is open leaves
`bIsActive` true, closes the gate (`bCanSpawn = false`) and does not touch the timer;
the next step is then a step of the timing gate: it counts the timer down, or, when the
timer has run out, resets it and opens the gate again. -/
theorem C4_batch_step_keeps_spawner_active (cfg : Config) (host : Host) (dt : ℚ)
    (s t : Spawner) (hact : s.bIsActive = true) (hcan : s.bCanSpawn = true)
    (hbatch : cfg.bSpawnAllAtOnce = true) (hstep : Tick cfg host dt s = some t) :
    t.bIsActive = true ∧ t.bCanSpawn = false ∧
    t.CurrentSpawningTimer = s.CurrentSpawningTimer ∧
    ∀ (host2 : Host) (dt2 : ℚ), Tick cfg host2 dt2 t =
      if t.CurrentSpawningTimer > 0 then
        some { t with CurrentSpawningTimer := t.CurrentSpawningTimer - dt2 }
      else some { resetTimer cfg host2 t with bCanSpawn := true } := by
  have hc := CleanCurrentlySpawnedActors_frame cfg host s
  simp only at hc
  obtain ⟨c1, c2, -, -, -, -, -⟩ := hc
  rw [Tick_batch cfg host dt s hact hcan hbatch] at hstep
  simp only [Option.map_eq_some'] at hstep
  obtain ⟨u, hu, rfl⟩ := hstep
  have key : u.bIsActive = true ∧ u.CurrentSpawningTimer = s.CurrentSpawningTimer := by
    split_ifs at hu with hok
    · obtain ⟨b1, b2, -, -, -, -⟩ := batchLoop_frame cfg host 0 _ u hu
      exact ⟨by rw [b1, c1, hact], by rw [b2, c2]⟩
    · simp only [Option.some.injEq] at hu
      subst hu
      exact ⟨by rw [c1, hact], c2⟩
  refine ⟨key.1, rfl, key.2, fun host2 dt2 => ?_⟩
  exact Tick_waiting cfg host2 dt2 _ key.1 rfl

/-- Witness of the amended C4 at the batch step of capacity 5. -/
theorem C4_batch_step_keeps_spawner_active_witness :
    Tick batchConfig (acceptingHost []) 0 readyState = some batchStepResult ∧
    batchStepResult.bIsActive = true ∧ batchStepResult.bCanSpawn = false ∧
    batchStepResult.CurrentSpawningTimer = readyState.CurrentSpawningTimer ∧
    ∀ (host2 : Host) (dt2 : ℚ), Tick batchConfig host2 dt2 batchStepResult =
      if batchStepResult.CurrentSpawningTimer > 0 then
        some { batchStepResult with
          CurrentSpawningTimer := batchStepResult.CurrentSpawningTimer - dt2 }
      else some { resetTimer batchConfig host2 batchStepResult with bCanSpawn := true } :=
  ⟨batchStep_eval, C4_batch_step_keeps_spawner_active batchConfig (acceptingHost []) 0
    readyState batchStepResult rfl rfl rfl batchStep_eval⟩

theorem runTicks_append (cfg : Config) (a b : List (Host × ℚ)) (s : Spawner) :
    runTicks cfg (a ++ b) s = (runTicks cfg a s).bind (runTicks cfg b) := by
  induction a generalizing s with
  | nil => simp [runTicks]
  | cons f fs ih =>
    simp only [List.cons_append, runTicks]
    cases Tick cfg f.1 f.2 s with
    | none => simp
    | some s1 => simpa using ih s1

/-- While the timer is positive at every step, waiting steps only count it down. -/
theorem runTicks_countdown (cfg : Config) (d : ℚ) (hd : 0 < d)
    (frames : List (Host × ℚ)) (hdt : ∀ f ∈ frames, f.2 = d) (s : Spawner)
    (hact : s.bIsActive = true) (hcan : s.bCanSpawn = false)
    (hT : (frames.length : ℚ) * d ≤ s.CurrentSpawningTimer) :
    runTicks cfg frames s =
      some { s with CurrentSpawningTimer := s.CurrentSpawningTimer - frames.length * d } := by
  induction frames generalizing s with
  | nil => simp [runTicks]
  | cons f fs ih =>
    have hf : f.2 = d := hdt f (List.mem_cons_self _ _)
    have hlen : ((f :: fs).length : ℚ) = fs.length + 1 := by simp
    rw [hlen] at hT
    have hfs : (0 : ℚ) ≤ fs.length := Nat.cast_nonneg _
    have hpos : s.CurrentSpawningTimer > 0 := by nlinarith
    simp only [runTicks]
    rw [Tick_waiting cfg f.1 f.2 s hact hcan, if_pos hpos]
    simp only
    have step := ih (fun g hg => hdt g (List.mem_cons_of_mem _ hg))
      { s with CurrentSpawningTimer := s.CurrentSpawningTimer - f.2 } hact hcan
      (by simp only [hf]; linarith)
    rw [step]
    simp only [hf, hlen]
    congr 2
    ring

/-- Counterexample to C5: interval 2 s, steps of 0.5 s. After `BeginPlay` and four calls
of `Tick` the timer is 0 and `bCanSpawn` is still false. -/
theorem C5_gate_still_closed_after_fourth_call :
    ((BeginPlay twoSecondConfig refusingHost (Spawner.initial true)).bind
        (runTicks twoSecondConfig (List.replicate 4 (refusingHost, 1 / 2)))).map
      (fun t => (t.bCanSpawn, t.CurrentSpawningTimer)) = some (false, 0) := by
  simp [BeginPlay, resetTimer, twoSecondConfig, defaultConfig, Spawner.initial, runTicks,
    Tick, List.replicate]
  norm_num

/-- C5, amended. Fixed interval `T = k * d` with `d > 0` and `k` a natural number such
that every multiple `n * d`, `n ≤ k`, is a binary32 number (so `d`, `T` and every value
`T - n * d` of the countdown are exact in `float` and no subtraction of the program
rounds), an active spawner with timer `T` and closed gate, and steps of constant
`DeltaTime = d`. After `n ≤ k` calls of `Tick` the gate is still closed and the timer
is the binary32 number `T - n * d`; after `k + 1` calls the gate is open and the timer
is `T` again. The step that brings the timer to 0 only counts down; the step after it
resets the timer and opens the gate. -/
theorem C5_gate_opens_on_call_after_countdown (cfg : Config) (d : ℚ) (k : Nat)
    (frames : List (Host × ℚ)) (s : Spawner)
    (hfixed : cfg.bRandomTimeBetweenSpawnings = false) (hd : 0 < d)
    (hT : cfg.TimeBetweenSpawnings = k * d)
    (hrep : ∀ n : Nat, n ≤ k → IsFloat32 (n * d))
    (hdt : ∀ f ∈ frames, f.2 = d)
    (hact : s.bIsActive = true) (hcan : s.bCanSpawn = false)
    (htimer : s.CurrentSpawningTimer = cfg.TimeBetweenSpawnings) :
    (frames.length ≤ k → ∃ t, runTicks cfg frames s = some t ∧ t.bCanSpawn = false ∧
      t.CurrentSpawningTimer = cfg.TimeBetweenSpawnings - frames.length * d ∧
      IsFloat32 t.CurrentSpawningTimer) ∧
    (frames.length = k + 1 → ∃ t, runTicks cfg frames s = some t ∧ t.bCanSpawn = true ∧
      t.CurrentSpawningTimer = cfg.TimeBetweenSpawnings ∧
      IsFloat32 t.CurrentSpawningTimer) := by
  constructor
  · intro hlen
    have hle : (frames.length : ℚ) * d ≤ s.CurrentSpawningTimer := by
      rw [htimer, hT]
      have : (frames.length : ℚ) ≤ k := by exact_mod_cast hlen
      nlinarith
    refine ⟨_, runTicks_countdown cfg d hd frames hdt s hact hcan hle, hcan, ?_, ?_⟩
    · simp only [htimer]
    · have hval : s.CurrentSpawningTimer - (frames.length : ℚ) * d =
          ((k - frames.length : Nat) : ℚ) * d := by
        rw [htimer, hT, Nat.cast_sub hlen]
        ring
      simp only [hval]
      exact hrep _ (Nat.sub_le _ _)
  · intro hlen
    obtain ⟨init, last, rfl⟩ : ∃ init last, frames = init ++ [last] := by
      rcases List.eq_nil_or_concat frames with h | ⟨init, last, h⟩
      · rw [h] at hlen
        simp at hlen
      · exact ⟨init, last, by simpa using h⟩
    have hinit : init.length = k := by simpa using hlen
    have hle : (init.length : ℚ) * d ≤ s.CurrentSpawningTimer := by
      rw [htimer, hT, hinit]
    have hrun := runTicks_countdown cfg d hd init
      (fun g hg => hdt g (List.mem_append_left _ hg)) s hact hcan hle
    rw [runTicks_append, hrun]
    simp only [Option.some_bind, runTicks]
    rw [Tick_waiting cfg last.1 last.2
      { s with CurrentSpawningTimer := s.CurrentSpawningTimer - (init.length : ℚ) * d }
      hact hcan]
    have hzero : ¬ (s.CurrentSpawningTimer - (init.length : ℚ) * d > 0) := by
      rw [htimer, hT, hinit]
      simp
    simp only [hzero, if_false]
    have hres : ({ resetTimer cfg last.1
        { s with CurrentSpawningTimer := s.CurrentSpawningTimer - (init.length : ℚ) * d }
        with bCanSpawn := true } : Spawner).CurrentSpawningTimer =
        cfg.TimeBetweenSpawnings := by
      simp [resetTimer, hfixed]
    refine ⟨_, rfl, rfl, hres, ?_⟩
    rw [hres, hT]
    exact hrep k (le_refl _)

/-- The multiples `n / 2`, `n ≤ 4`, are binary32 numbers. -/
theorem halves_are_float32 (n : Nat) (hn : n ≤ 4) : IsFloat32 ((n : ℚ) * (1 / 2)) := by
  refine ⟨(n : Int), -1, ?_, by norm_num, by norm_num, ?_⟩
  · rw [abs_of_nonneg (Int.ofNat_nonneg n)]
    have : (n : Int) ≤ 4 := by exact_mod_cast hn
    omega
  · simp [zpow_neg_one]

/-- Witness of the amended C5 at `T = 2`, `d = 1 / 2`, `k = 4` and five frames. -/
theorem C5_gate_opens_on_call_after_countdown_witness :
    (∀ n : Nat, n ≤ 4 → IsFloat32 ((n : ℚ) * (1 / 2))) ∧
    (List.replicate 5 (refusingHost, (1 / 2 : ℚ))).length = 4 + 1 ∧
    ∃ t, runTicks twoSecondConfig (List.replicate 5 (refusingHost, (1 / 2 : ℚ)))
        { Spawner.initial true with CurrentSpawningTimer := 2 } = some t ∧
      t.bCanSpawn = true ∧ t.CurrentSpawningTimer = twoSecondConfig.TimeBetweenSpawnings ∧
      IsFloat32 t.CurrentSpawningTimer :=
  ⟨halves_are_float32, rfl, (C5_gate_opens_on_call_after_countdown twoSecondConfig (1 / 2) 4
      (List.replicate 5 (refusingHost, (1 / 2 : ℚ)))
      { Spawner.initial true with CurrentSpawningTimer := 2 } rfl (by norm_num)
      (by norm_num [twoSecondConfig, defaultConfig]) halves_are_float32
      (by intro f hf; rw [List.eq_of_mem_replicate hf]) rfl rfl
      (by simp [twoSecondConfig, defaultConfig])).2 rfl⟩

theorem afterIndexCalls_cursor (cfg : Config) (host : Host) (s : Spawner) (k : Nat)
    (hN : 0 < cfg.SpawnableActors.length) (hord : cfg.bSpawnActorsInOrder = true)
    (h0 : s.CurrentSpawningIndex = 0) :
    (afterIndexCalls cfg host k s).CurrentSpawningIndex =
      ((k % cfg.SpawnableActors.length : Nat) : Int) := by
  induction k with
  | zero => simp [afterIndexCalls, h0]
  | succ k ih =>
    simp only [afterIndexCalls, GetSpawnableActorIndex, hord, if_true, ih]
    have hmod := Nat.mod_lt k hN
    have hstep : (k + 1) % cfg.SpawnableActors.length =
        if k % cfg.SpawnableActors.length + 1 = cfg.SpawnableActors.length then 0
        else k % cfg.SpawnableActors.length + 1 := by
      rw [← Nat.mod_add_mod k cfg.SpawnableActors.length 1]
      split_ifs with hw
      · rw [hw, Nat.mod_self]
      · exact Nat.mod_eq_of_lt (by omega)
    rw [hstep]
    split_ifs <;> omega

/-- C6. Round-robin selection. For a non-empty `SpawnableActors` of length `N`, in order
mode and starting from cursor 0, call number `k` (`k = 0, 1, 2, ...`) of
`GetSpawnableActorIndex` returns `k mod N`; the cursor is `k mod N` before that call and
`(k + 1) mod N` after it, both in `[0, N)`, and the returned index is a valid index of
the list. -/
theorem C6_round_robin_returns_k_mod_N (cfg : Config) (host : Host) (s : Spawner)
    (k : Nat) (hN : 0 < cfg.SpawnableActors.length)
    (hord : cfg.bSpawnActorsInOrder = true) (h0 : s.CurrentSpawningIndex = 0) :
    (GetSpawnableActorIndex cfg host (afterIndexCalls cfg host k s)).1 =
      ((k % cfg.SpawnableActors.length : Nat) : Int) ∧
    (afterIndexCalls cfg host k s).CurrentSpawningIndex =
      ((k % cfg.SpawnableActors.length : Nat) : Int) ∧
    (afterIndexCalls cfg host (k + 1) s).CurrentSpawningIndex =
      (((k + 1) % cfg.SpawnableActors.length : Nat) : Int) ∧
    k % cfg.SpawnableActors.length < cfg.SpawnableActors.length ∧
    (k + 1) % cfg.SpawnableActors.length < cfg.SpawnableActors.length ∧
    (cfg.SpawnableActors[((GetSpawnableActorIndex cfg host
      (afterIndexCalls cfg host k s)).1).toNat]?).isSome = true := by
  have hk := afterIndexCalls_cursor cfg host s k hN hord h0
  have hk1 := afterIndexCalls_cursor cfg host s (k + 1) hN hord h0
  have hret : (GetSpawnableActorIndex cfg host (afterIndexCalls cfg host k s)).1 =
      ((k % cfg.SpawnableActors.length : Nat) : Int) := by
    simp only [GetSpawnableActorIndex, hord, if_true, hk]
  refine ⟨hret, hk, hk1, Nat.mod_lt k hN, Nat.mod_lt (k + 1) hN, ?_⟩
  rw [hret, Int.toNat_ofNat, List.getElem?_eq_getElem (Nat.mod_lt k hN)]
  rfl

/-- Witness of C6: three classes, call number 4 returns 1. -/
theorem C6_round_robin_returns_k_mod_N_witness :
    0 < threeClassConfig.SpawnableActors.length ∧
    (GetSpawnableActorIndex threeClassConfig refusingHost
      (afterIndexCalls threeClassConfig refusingHost 4 (Spawner.initial true))).1 =
      ((4 % threeClassConfig.SpawnableActors.length : Nat) : Int) :=
  ⟨by decide, (C6_round_robin_returns_k_mod_N threeClassConfig refusingHost
    (Spawner.initial true) 4 (by decide) rfl rfl).1⟩

/-- C7. `CleanCurrentlySpawnedActors` returns true exactly when the number of entries
left in `CurrentlySpawnedActors` after its loop is strictly less than `HowManyToSpawn`;
with as many entries as the capacity, or more, it returns false. -/
theorem C7_capacity_check_is_strict_less (cfg : Config) (host : Host) (s : Spawner) :
    ((CleanCurrentlySpawnedActors cfg host s).1 = true ↔
      ((CleanCurrentlySpawnedActors cfg host s).2.CurrentlySpawnedActors.length : Int)
        < cfg.HowManyToSpawn) ∧
    ((CleanCurrentlySpawnedActors cfg host s).1 = false ↔
      cfg.HowManyToSpawn ≤
        ((CleanCurrentlySpawnedActors cfg host s).2.CurrentlySpawnedActors.length : Int)) ∧
    (CleanCurrentlySpawnedActors cfg host s).2.CurrentlySpawnedActors =
      cleanLoop host 0 s.CurrentlySpawnedActors := by
  simp [CleanCurrentlySpawnedActors]

/-- C8. Trickle dispatch. A step of an active spawner with open gate, not in batch
mode, closes the gate (`bCanSpawn = false`) whether or not there was room; it calls
`SpawnActor` exactly once when the capacity check returned true and not at all when it
returned false, and the host is asked to spawn at most that often. In order mode with a
valid cursor the step does not abort. -/
theorem C8_trickle_step_consumes_gate (cfg : Config) (host : Host) (dt : ℚ)
    (s : Spawner) (hact : s.bIsActive = true) (hcan : s.bCanSpawn = true)
    (htrickle : cfg.bSpawnAllAtOnce = false) :
    (∀ t, Tick cfg host dt s = some t →
      t.bCanSpawn = false ∧
      attempts t.log = attempts s.log +
        (if (CleanCurrentlySpawnedActors cfg host s).1 = true then 1 else 0) ∧
      hostSpawns s.log ≤ hostSpawns t.log ∧
      hostSpawns t.log ≤ hostSpawns s.log +
        (if (CleanCurrentlySpawnedActors cfg host s).1 = true then 1 else 0)) ∧
    (cfg.bSpawnActorsInOrder = true → IndexOk cfg s → ∃ t, Tick cfg host dt s = some t) := by
  constructor
  · intro t hstep
    rw [Tick_trickle cfg host dt s hact hcan htrickle] at hstep
    simp only [Option.map_eq_some'] at hstep
    obtain ⟨u, hu, rfl⟩ := hstep
    have hc := CleanCurrentlySpawnedActors_frame cfg host s
    simp only at hc
    obtain ⟨-, -, -, -, c5, -, -⟩ := hc
    split_ifs at hu ⊢ with hok
    · obtain ⟨-, -, -, -, -, n6, n7, n8⟩ := spawnNext_frame cfg host _ u hu
      rw [c5] at n6 n7 n8
      exact ⟨rfl, n6, n7, n8⟩
    · simp only [Option.some.injEq] at hu
      subst hu
      simp [c5]
  · intro hord hok
    obtain ⟨t, ht, -⟩ := Tick_isSome cfg host dt s hord hok
    exact ⟨t, ht⟩

/-- Witness of C8: capacity 1, one class, nothing tracked, accepting host. -/
theorem C8_trickle_step_consumes_gate_witness :
    Tick oneClassConfig (acceptingHost []) 0 readyState = some trickleStepResult ∧
    trickleStepResult.bCanSpawn = false ∧
    attempts trickleStepResult.log = attempts readyState.log +
      (if (CleanCurrentlySpawnedActors oneClassConfig (acceptingHost [])
        readyState).1 = true then 1 else 0) ∧
    hostSpawns readyState.log ≤ hostSpawns trickleStepResult.log ∧
    hostSpawns trickleStepResult.log ≤ hostSpawns readyState.log +
      (if (CleanCurrentlySpawnedActors oneClassConfig (acceptingHost [])
        readyState).1 = true then 1 else 0) :=
  ⟨trickleStep_eval, (C8_trickle_step_consumes_gate oneClassConfig (acceptingHost []) 0
    readyState rfl rfl rfl).1 trickleStepResult trickleStep_eval⟩

/-- C9. With an empty `SpawnableActors` and a world, a call of `SpawnActor` with any
location, rotation and index returns normally (the list is not indexed), makes no host
spawn call, leaves `CurrentlySpawnedActors` unchanged, triggers neither the effect nor
the sound, and shows the on-screen message exactly once. -/
theorem C9_empty_list_spawn_reports_once (cfg : Config) (host : Host) (loc : FVector)
    (rot : FRotator) (idx : Int) (s : Spawner) (hempty : cfg.SpawnableActors = [])
    (hworld : host.hasWorld = true) :
    ∃ t, SpawnActor cfg host loc rot idx s = some t ∧
      t.log = s.log ++ [Event.attempt loc rot idx, Event.diagnostic] ∧
      t.CurrentlySpawnedActors = s.CurrentlySpawnedActors ∧
      t.hostSpawnCalls = s.hostSpawnCalls ∧
      hostSpawns t.log = hostSpawns s.log ∧
      effects t.log = effects s.log ∧
      diagnostics t.log = diagnostics s.log + 1 := by
  refine ⟨(s.emit (Event.attempt loc rot idx)).emit Event.diagnostic, ?_, ?_⟩
  · simp [SpawnActor, hempty, hworld]
  · simp [Spawner.emit, hostSpawns, effects, diagnostics]

/-- Witness of C9: the header defaults have no spawnable class. -/
theorem C9_empty_list_spawn_reports_once_witness :
    defaultConfig.SpawnableActors = [] ∧ refusingHost.hasWorld = true ∧
    ∃ t, SpawnActor defaultConfig refusingHost zeroVector zeroRotator 3
        (Spawner.initial true) = some t ∧
      t.log = (Spawner.initial true).log ++
        [Event.attempt zeroVector zeroRotator 3, Event.diagnostic] ∧
      t.CurrentlySpawnedActors = (Spawner.initial true).CurrentlySpawnedActors ∧
      t.hostSpawnCalls = (Spawner.initial true).hostSpawnCalls ∧
      hostSpawns t.log = hostSpawns (Spawner.initial true).log ∧
      effects t.log = effects (Spawner.initial true).log ∧
      diagnostics t.log = diagnostics (Spawner.initial true).log + 1 :=
  ⟨rfl, rfl, C9_empty_list_spawn_reports_once defaultConfig refusingHost zeroVector
    zeroRotator 3 (Spawner.initial true) rfl rfl⟩

/-- Counterexample to C10: three classes, the one at index 1 unset, a world that accepts
every spawn. `SpawnActor` with index 1 shows no on-screen message. -/
theorem C10_null_class_spawn_reports_nothing :
    (SpawnActor threeClassConfig (acceptingHost []) zeroVector zeroRotator 1
        (Spawner.initial true)).map (fun t => diagnostics t.log) = some 0 := by
  simp [SpawnActor, threeClassConfig, defaultConfig, acceptingHost, Spawner.initial,
    Spawner.emit, diagnostics]

/-- C10, amended. When the entry of `SpawnableActors` at the chosen index is null, a
call of `SpawnActor` is a silent no-op: it returns normally, makes no host spawn call,
leaves `CurrentlySpawnedActors` unchanged, triggers neither the effect nor the sound,
and shows no on-screen message. -/
theorem C10_null_class_spawn_is_silent (cfg : Config) (host : Host) (loc : FVector)
    (rot : FRotator) (idx : Int) (s : Spawner) (hidx : 0 ≤ idx)
    (hnull : cfg.SpawnableActors[idx.toNat]? = some none) :
    ∃ t, SpawnActor cfg host loc rot idx s = some t ∧
      t.log = s.log ++ [Event.attempt loc rot idx] ∧
      t.CurrentlySpawnedActors = s.CurrentlySpawnedActors ∧
      t.hostSpawnCalls = s.hostSpawnCalls ∧
      hostSpawns t.log = hostSpawns s.log ∧
      effects t.log = effects s.log ∧
      diagnostics t.log = diagnostics s.log := by
  have hlen : cfg.SpawnableActors.length > 0 := by
    have := List.getElem?_eq_some.mp hnull
    obtain ⟨h, -⟩ := this
    omega
  have hneg : ¬ idx < 0 := by omega
  refine ⟨s.emit (Event.attempt loc rot idx), ?_, ?_⟩
  · unfold SpawnActor
    cases host.hasWorld <;> simp [hlen, hneg, hnull]
  · simp [Spawner.emit, hostSpawns, effects, diagnostics]

/-- Witness of the amended C10 at the second of three classes. -/
theorem C10_null_class_spawn_is_silent_witness :
    (0 : Int) ≤ 1 ∧ threeClassConfig.SpawnableActors[(1 : Int).toNat]? = some none ∧
    ∃ t, SpawnActor threeClassConfig (acceptingHost []) zeroVector zeroRotator 1
        (Spawner.initial true) = some t ∧
      t.log = (Spawner.initial true).log ++ [Event.attempt zeroVector zeroRotator 1] ∧
      t.CurrentlySpawnedActors = (Spawner.initial true).CurrentlySpawnedActors ∧
      t.hostSpawnCalls = (Spawner.initial true).hostSpawnCalls ∧
      hostSpawns t.log = hostSpawns (Spawner.initial true).log ∧
      effects t.log = effects (Spawner.initial true).log ∧
      diagnostics t.log = diagnostics (Spawner.initial true).log :=
  ⟨by decide, rfl, C10_null_class_spawn_is_silent threeClassConfig (acceptingHost [])
    zeroVector zeroRotator 1 (Spawner.initial true) (by decide) rfl⟩

/-- C11 (code defect). A valid class, an effect and a sound configured, and a host that
refuses the spawn: `SpawnActor` asks the host once, tracks nothing and shows no message,
but it still triggers the visual effect and the sound, which the claim excludes. -/
theorem C11_refused_spawn_still_triggers_effect_and_sound :
    (SpawnActor effectConfig refusingHost zeroVector zeroRotator 0
        (Spawner.initial true)).map
      (fun t => (t.log, t.CurrentlySpawnedActors, t.hostSpawnCalls)) =
      some ([Event.attempt zeroVector zeroRotator 0,
             Event.hostSpawn 7 zeroVector zeroRotator none, Event.fx, Event.sound],
            [], 1) ∧
    (SpawnActor effectConfig refusingHost zeroVector zeroRotator 0
        (Spawner.initial true)).map
      (fun t => (effects t.log, diagnostics t.log, hostSpawns t.log)) = some (2, 0, 1) := by
  constructor <;>
    simp [SpawnActor, effectConfig, defaultConfig, refusingHost, Spawner.initial,
      Spawner.emit, effects, diagnostics, hostSpawns]

/-- `BeginPlay` with the grid-fill flag leaves the spawner inactive. -/
theorem BeginPlay_grid_inactive (cfg : Config) (host : Host) (s t : Spawner)
    (hgrid : cfg.bSpawnActorsInArray = true) (h : BeginPlay cfg host s = some t) :
    t.bIsActive = false := by
  unfold BeginPlay at h
  simp only [hgrid, if_true, Option.map_map, Option.map_eq_some'] at h
  obtain ⟨u, -, rfl⟩ := h
  have := (resetTimer_frame cfg host { u with bIsActive := false }).1
  simpa using this

/-- An inactive spawner is not changed by any number of steps. -/
theorem runTicks_inactive (cfg : Config) (frames : List (Host × ℚ)) (s : Spawner)
    (hact : s.bIsActive = false) : runTicks cfg frames s = some s := by
  induction frames with
  | nil => rfl
  | cons f fs ih => simp only [runTicks, Tick_inactive cfg f.1 f.2 s hact, ih]

/-- C15. After `BeginPlay` with the grid-fill flag set, `bIsActive` is false, and every
later sequence of `Tick`s, with any host answers and any `DeltaTime`, leaves the whole
state unchanged: timer, gate, cursor, tracked actors, the counters of host calls and the
log of spawn calls, effects and messages. More generally a `Tick` taken while
`bIsActive` is false returns the state it was given. In order mode with a valid cursor
`BeginPlay` does not abort. -/
theorem C15_grid_fill_spawner_is_frozen (cfg : Config) (h0 : Host) (s0 : Spawner)
    (hgrid : cfg.bSpawnActorsInArray = true) :
    (∀ s1, BeginPlay cfg h0 s0 = some s1 →
      s1.bIsActive = false ∧
      ∀ frames : List (Host × ℚ), runTicks cfg frames s1 = some s1) ∧
    (∀ (host : Host) (dt : ℚ) (s : Spawner), s.bIsActive = false →
      Tick cfg host dt s = some s) ∧
    (cfg.bSpawnActorsInOrder = true → IndexOk cfg s0 →
      ∃ s1, BeginPlay cfg h0 s0 = some s1) := by
  refine ⟨fun s1 hb => ?_, fun host dt s hs => Tick_inactive cfg host dt s hs, ?_⟩
  · have hin := BeginPlay_grid_inactive cfg h0 s0 s1 hgrid hb
    exact ⟨hin, fun frames => runTicks_inactive cfg frames s1 hin⟩
  · intro hord hok
    obtain ⟨s1, hs1, -⟩ := BeginPlay_isSome cfg h0 s0 hord hok
    exact ⟨s1, hs1⟩

/-- Witness of C15 at the grid fill of the header defaults. -/
theorem C15_grid_fill_spawner_is_frozen_witness :
    gridConfig.bSpawnActorsInArray = true ∧
    ((∀ s1, BeginPlay gridConfig (acceptingHost []) (Spawner.initial true) = some s1 →
      s1.bIsActive = false ∧
      ∀ frames : List (Host × ℚ), runTicks gridConfig frames s1 = some s1) ∧
    (∀ (host : Host) (dt : ℚ) (s : Spawner), s.bIsActive = false →
      Tick gridConfig host dt s = some s) ∧
    (gridConfig.bSpawnActorsInOrder = true → IndexOk gridConfig (Spawner.initial true) →
      ∃ s1, BeginPlay gridConfig (acceptingHost []) (Spawner.initial true) = some s1)) :=
  ⟨rfl, C15_grid_fill_spawner_is_frozen gridConfig (acceptingHost [])
    (Spawner.initial true) rfl⟩

/-- C16. Placement. With the three position flags off `GetSpawnLocation` returns exactly
`GetActorLocation()`, whatever the random source answers, and asks for no random number.
With a random source that answers within the requested range and non-negative
`Bounds.BoxExtent`, every coordinate whose flag is on differs from the anchor by an
offset in `[-E, E]` (`E` the extent on that axis; the offset is 0 when `E = 0`) and
every coordinate whose flag is off equals the anchor's. -/
theorem C16_spawn_location_within_extent (cfg : Config) (host : Host) (s : Spawner) :
    (cfg.bRandomLocationX = false → cfg.bRandomLocationY = false →
      cfg.bRandomLocationZ = false →
      GetSpawnLocation cfg host s = (cfg.ActorLocation, s)) ∧
    (RandInRange host →
      (if cfg.bRandomLocationX = true then
        0 ≤ cfg.BoundsBoxExtent.X →
          -cfg.BoundsBoxExtent.X ≤ (GetSpawnLocation cfg host s).1.X - cfg.ActorLocation.X ∧
          (GetSpawnLocation cfg host s).1.X - cfg.ActorLocation.X ≤ cfg.BoundsBoxExtent.X ∧
          (cfg.BoundsBoxExtent.X = 0 →
            (GetSpawnLocation cfg host s).1.X = cfg.ActorLocation.X)
       else (GetSpawnLocation cfg host s).1.X = cfg.ActorLocation.X) ∧
      (if cfg.bRandomLocationY = true then
        0 ≤ cfg.BoundsBoxExtent.Y →
          -cfg.BoundsBoxExtent.Y ≤ (GetSpawnLocation cfg host s).1.Y - cfg.ActorLocation.Y ∧
          (GetSpawnLocation cfg host s).1.Y - cfg.ActorLocation.Y ≤ cfg.BoundsBoxExtent.Y ∧
          (cfg.BoundsBoxExtent.Y = 0 →
            (GetSpawnLocation cfg host s).1.Y = cfg.ActorLocation.Y)
       else (GetSpawnLocation cfg host s).1.Y = cfg.ActorLocation.Y) ∧
      (if cfg.bRandomLocationZ = true then
        0 ≤ cfg.BoundsBoxExtent.Z →
          -cfg.BoundsBoxExtent.Z ≤ (GetSpawnLocation cfg host s).1.Z - cfg.ActorLocation.Z ∧
          (GetSpawnLocation cfg host s).1.Z - cfg.ActorLocation.Z ≤ cfg.BoundsBoxExtent.Z ∧
          (cfg.BoundsBoxExtent.Z = 0 →
            (GetSpawnLocation cfg host s).1.Z = cfg.ActorLocation.Z)
       else (GetSpawnLocation cfg host s).1.Z = cfg.ActorLocation.Z)) := by
  constructor
  · intro hx hy hz
    simp [GetSpawnLocation, hx, hy, hz]
  · intro hr
    have key : ∀ (n : Nat) (E : ℚ), 0 ≤ E →
        -E ≤ host.RandRangeFloat n (-E) E ∧ host.RandRangeFloat n (-E) E ≤ E ∧
        (E = 0 → host.RandRangeFloat n (-E) E = 0) := by
      intro n E hE
      obtain ⟨h1, h2⟩ := hr n (-E) E (by linarith)
      refine ⟨h1, h2, fun h0 => ?_⟩
      rw [h0] at h1 h2 ⊢
      simp only [neg_zero] at h1 h2 ⊢
      exact le_antisymm h2 h1
    refine ⟨?_, ?_, ?_⟩
    · unfold GetSpawnLocation randFloat
      split_ifs <;> simp <;> intro hE
      all_goals
        obtain ⟨k1, k2, k3⟩ := key _ _ hE
        exact ⟨k1, k2, k3⟩
    · unfold GetSpawnLocation randFloat
      split_ifs <;> simp <;> intro hE
      all_goals
        obtain ⟨k1, k2, k3⟩ := key _ _ hE
        exact ⟨k1, k2, k3⟩
    · unfold GetSpawnLocation randFloat
      split_ifs <;> simp <;> intro hE
      all_goals
        obtain ⟨k1, k2, k3⟩ := key _ _ hE
        exact ⟨k1, k2, k3⟩

/-- Witness of C16: offset on the X axis only, extent 100, a random source that answers
with the lower end of the range. -/
theorem C16_spawn_location_within_extent_witness :
    RandInRange refusingHost ∧
    (if jitterXConfig.bRandomLocationX = true then
      0 ≤ jitterXConfig.BoundsBoxExtent.X →
        -jitterXConfig.BoundsBoxExtent.X ≤
          (GetSpawnLocation jitterXConfig refusingHost (Spawner.initial true)).1.X -
            jitterXConfig.ActorLocation.X ∧
        (GetSpawnLocation jitterXConfig refusingHost (Spawner.initial true)).1.X -
          jitterXConfig.ActorLocation.X ≤ jitterXConfig.BoundsBoxExtent.X ∧
        (jitterXConfig.BoundsBoxExtent.X = 0 →
          (GetSpawnLocation jitterXConfig refusingHost (Spawner.initial true)).1.X =
            jitterXConfig.ActorLocation.X)
     else (GetSpawnLocation jitterXConfig refusingHost (Spawner.initial true)).1.X =
        jitterXConfig.ActorLocation.X) ∧
    (GetSpawnLocation jitterXConfig refusingHost (Spawner.initial true)).1 =
      { X := -100, Y := 0, Z := 0 } :=
  ⟨fun _ _ _ h => ⟨le_refl _, h⟩,
    ((C16_spawn_location_within_extent jitterXConfig refusingHost
      (Spawner.initial true)).2 (fun _ _ _ h => ⟨le_refl _, h⟩)).1,
    by simp [GetSpawnLocation, randFloat, jitterXConfig, defaultConfig, refusingHost]⟩

@[simp]
theorem attemptLocations_append (l m : List Event) :
    attemptLocations (l ++ m) = attemptLocations l ++ attemptLocations m := by
  simp [attemptLocations]

/-- The log after a call of `SpawnActor`: the call itself, then actions that are not
calls of `SpawnActor`. -/
theorem SpawnActor_attemptLocations (cfg : Config) (host : Host) (loc : FVector)
    (rot : FRotator) (idx : Int) (s t : Spawner)
    (h : SpawnActor cfg host loc rot idx s = some t) :
    attemptLocations t.log = attemptLocations s.log ++ [loc] := by
  unfold SpawnActor at h
  by_cases hw : host.hasWorld = true
  · by_cases hn : cfg.SpawnableActors.length > 0
    · by_cases hneg : idx < 0
      · simp [hw, hn, hneg] at h
      · cases hget : cfg.SpawnableActors[idx.toNat]? with
        | none => simp [hw, hn, hneg, hget] at h
        | some cls =>
          cases cls with
          | none =>
            simp [hw, hn, hneg, hget] at h
            subst h
            simp [Spawner.emit, attemptLocations]
          | some c =>
            simp only [hw, hn, hneg, hget, if_true, if_false] at h
            simp only [Option.some.injEq] at h
            subst h
            cases host.SpawnActor (s.emit (Event.attempt loc rot idx)).hostSpawnCalls c loc rot <;>
              cases cfg.SpawningFX <;> cases cfg.SpawningSound <;>
              simp [Spawner.emit, attemptLocations]
    · simp [hw, hn] at h
      subst h
      simp [Spawner.emit, attemptLocations]
  · simp [hw] at h
    subst h
    simp [Spawner.emit, attemptLocations]

/-- The loop of `SpawnActorsInArray` calls `SpawnActor` once for every value of
`gridOffsets`, in that order; with the position flags off the location of the call is
the actor location plus that value. -/
theorem arrayLoop_attempts (cfg : Config) (host : Host) (n : Nat) (sp : FVector)
    (s t : Spawner) (h : arrayLoop cfg host n sp s = some t) :
    attempts t.log = attempts s.log + (gridOffsets cfg n sp).length ∧
    (cfg.bRandomLocationX = false → cfg.bRandomLocationY = false →
      cfg.bRandomLocationZ = false →
      attemptLocations t.log = attemptLocations s.log ++
        (gridOffsets cfg n sp).map fun o => cfg.ActorLocation.add o) := by
  induction n generalizing sp s with
  | zero =>
    simp only [arrayLoop, Option.some.injEq] at h
    subst h
    simp [gridOffsets]
  | succ n ih =>
    simp only [arrayLoop] at h
    simp only [gridOffsets]
    split_ifs at h ⊢ with hz
    · simp only [Option.some.injEq] at h
      subst h
      simp
    · split at h
      · simp at h
      · rename_i s1 hs1
        obtain ⟨b1, b2⟩ := ih _ _ h
        have hl := GetSpawnLocation_frame cfg host s
        have hr := GetSpawnRotation_frame cfg host (GetSpawnLocation cfg host s).2
        have hk := GetSpawnableActorIndex_frame cfg host
          (GetSpawnRotation cfg host (GetSpawnLocation cfg host s).2).2
        have hs := SpawnActor_frame _ _ _ _ _ _ _ hs1
        have hloc := SpawnActor_attemptLocations _ _ _ _ _ _ _ hs1
        unfold EqUpToRand at hl hr
        simp only at hk
        obtain ⟨-, -, -, -, -, -, l7⟩ := hl
        obtain ⟨-, -, -, -, -, -, r7⟩ := hr
        obtain ⟨-, -, -, -, -, k7⟩ := hk
        obtain ⟨-, -, -, -, -, -, a7, -, -⟩ := hs
        rw [k7, r7, l7] at a7 hloc
        refine ⟨?_, fun hx hy hz => ?_⟩
        · rw [b1, a7, List.length_cons]
          omega
        · rw [b2 hx hy hz, hloc]
          have : (GetSpawnLocation cfg host s).1 = cfg.ActorLocation := by
            simp [GetSpawnLocation, hx, hy, hz]
          rw [this]
          simp

theorem SpawnActorsInArray_eq (cfg : Config) (host : Host) (s : Spawner) :
    SpawnActorsInArray cfg host s =
      arrayLoop cfg host cfg.HowManyToSpawn.toNat (initialSpacing cfg) s := rfl

theorem gridOffsets_length_le (cfg : Config) (n : Nat) (sp : FVector) :
    (gridOffsets cfg n sp).length ≤ n := by
  induction n generalizing sp with
  | zero => simp [gridOffsets]
  | succ n ih =>
    simp only [gridOffsets]
    split_ifs
    · simp
    · simpa using ih _

/-- Fewer iterations give a prefix of the offsets. -/
theorem gridOffsets_take (cfg : Config) (n k : Nat) (sp : FVector) :
    gridOffsets cfg n sp = (gridOffsets cfg (n + k) sp).take n := by
  induction n generalizing sp with
  | zero => simp [gridOffsets]
  | succ n ih =>
    rw [Nat.add_right_comm]
    simp only [gridOffsets]
    split_ifs
    · simp
    · simp only [List.take_succ_cons, List.cons.injEq, true_and]
      exact ih _

/-- Once the loop has been left, more iterations change nothing. -/
theorem gridOffsets_stable (cfg : Config) (n k : Nat) (sp : FVector)
    (h : (gridOffsets cfg n sp).length < n) :
    gridOffsets cfg (n + k) sp = gridOffsets cfg n sp := by
  induction n generalizing sp with
  | zero => simp at h
  | succ n ih =>
    rw [Nat.add_right_comm]
    simp only [gridOffsets] at h ⊢
    split_ifs at h ⊢
    · rfl
    · simp only [List.length_cons, Nat.add_lt_add_iff_right] at h
      rw [ih _ h]

/-- The offsets are the successive values of `Spacing`, none of them below the lower Z
bound, and the loop ends before its last iteration only when the next value is below
that bound. -/
theorem gridOffsets_spec (cfg : Config) (n : Nat) (sp : FVector) :
    (∀ j, j < (gridOffsets cfg n sp).length →
      (gridOffsets cfg n sp)[j]? = some (spacingAt cfg (j + 1) sp) ∧
      ¬ (spacingAt cfg (j + 1) sp).Z < -cfg.LocalBoxExtent.Z + cfg.SpacingInArray) ∧
    ((gridOffsets cfg n sp).length < n →
      (spacingAt cfg ((gridOffsets cfg n sp).length + 1) sp).Z
        < -cfg.LocalBoxExtent.Z + cfg.SpacingInArray) := by
  induction n generalizing sp with
  | zero => simp [gridOffsets]
  | succ n ih =>
    simp only [gridOffsets]
    split_ifs with hz
    · simp [spacingAt, hz]
    · obtain ⟨i1, i2⟩ := ih (advanceSpacing cfg sp)
      constructor
      · intro j hj
        cases j with
        | zero => simp [spacingAt, hz]
        | succ j =>
          simp only [List.length_cons, Nat.add_lt_add_iff_right] at hj
          obtain ⟨a, b⟩ := i1 j hj
          simp only [List.getElem?_cons_succ]
          exact ⟨a, b⟩
      · intro hlt
        simp only [List.length_cons, Nat.add_lt_add_iff_right] at hlt
        exact i2 hlt

/-- C12. Grid fill ends for every configuration: the loop of `SpawnActorsInArray` runs
at most `HowManyToSpawn` times (the model is a total function for any extents, any
spacing, 0 included, and any capacity). It calls `SpawnActor` once per offset of
`gridOffsets`, hence at most capacity times, and it leaves the loop, with fewer calls
than the capacity, at the first iteration whose `Spacing.Z` is below
`-BoxExtent.Z + SpacingInArray`. In order mode with a valid cursor it does not abort. -/
theorem C12_grid_fill_bounded_by_capacity (cfg : Config) (host : Host) (s : Spawner) :
    (∀ t, SpawnActorsInArray cfg host s = some t →
      attempts t.log = attempts s.log +
        (gridOffsets cfg cfg.HowManyToSpawn.toNat (initialSpacing cfg)).length) ∧
    (gridOffsets cfg cfg.HowManyToSpawn.toNat (initialSpacing cfg)).length
      ≤ cfg.HowManyToSpawn.toNat ∧
    (0 ≤ cfg.HowManyToSpawn →
      ((gridOffsets cfg cfg.HowManyToSpawn.toNat (initialSpacing cfg)).length : Int)
        ≤ cfg.HowManyToSpawn) ∧
    (∀ j, j < cfg.HowManyToSpawn.toNat →
      (spacingAt cfg (j + 1) (initialSpacing cfg)).Z
        < -cfg.LocalBoxExtent.Z + cfg.SpacingInArray →
      (gridOffsets cfg cfg.HowManyToSpawn.toNat (initialSpacing cfg)).length ≤ j) ∧
    ((gridOffsets cfg cfg.HowManyToSpawn.toNat (initialSpacing cfg)).length
        < cfg.HowManyToSpawn.toNat →
      (spacingAt cfg
        ((gridOffsets cfg cfg.HowManyToSpawn.toNat (initialSpacing cfg)).length + 1)
        (initialSpacing cfg)).Z < -cfg.LocalBoxExtent.Z + cfg.SpacingInArray) ∧
    (cfg.bSpawnActorsInOrder = true → IndexOk cfg s →
      ∃ t, SpawnActorsInArray cfg host s = some t) := by
  have hlen := gridOffsets_length_le cfg cfg.HowManyToSpawn.toNat (initialSpacing cfg)
  obtain ⟨sp1, sp2⟩ := gridOffsets_spec cfg cfg.HowManyToSpawn.toNat (initialSpacing cfg)
  refine ⟨fun t ht => ?_, hlen, fun hC => ?_, fun j _ hz => ?_, sp2, fun hord hok => ?_⟩
  · rw [SpawnActorsInArray_eq] at ht
    exact (arrayLoop_attempts cfg host _ _ s t ht).1
  · omega
  · by_contra hcon
    exact (sp1 j (by omega)).2 hz
  · obtain ⟨t, ht, -⟩ := arrayLoop_isSome cfg host cfg.HowManyToSpawn.toNat
      (initialSpacing cfg) s hord hok
    exact ⟨t, ht⟩

/-- Every step of `Spacing` either moves Y up by the spacing, or, when the row is
finished, puts Y back to the start of a row. -/
theorem advanceSpacing_Y (cfg : Config) (sp : FVector) :
    (advanceSpacing cfg sp).Y =
      if sp.Y > cfg.LocalBoxExtent.Y - cfg.SpacingInArray then
        -cfg.LocalBoxExtent.Y + cfg.SpacingInArray
      else sp.Y + cfg.SpacingInArray := by
  simp only [advanceSpacing]
  split_ifs <;> rfl

/-- Consecutive offsets of the grid fill. -/
theorem gridOffsets_chain (cfg : Config) (n : Nat) (sp : FVector) :
    List.Chain' (fun p q => q = advanceSpacing cfg p) (gridOffsets cfg n sp) := by
  induction n generalizing sp with
  | zero => simp [gridOffsets]
  | succ n ih =>
    simp only [gridOffsets]
    split_ifs
    · simp
    · have := ih (advanceSpacing cfg sp)
      cases n with
      | zero => simp [gridOffsets]
      | succ n =>
        simp only [gridOffsets] at this ⊢
        split_ifs at this ⊢
        · simp
        · exact List.Chain'.cons rfl this

theorem advanceSpacing_row_end (cfg : Config) (sp : FVector)
    (h : sp.Y > cfg.LocalBoxExtent.Y - cfg.SpacingInArray) :
    (advanceSpacing cfg sp).X = sp.X - cfg.SpacingInArray ∨
    ((advanceSpacing cfg sp).X = cfg.LocalBoxExtent.X - cfg.SpacingInArray ∧
      (advanceSpacing cfg sp).Z = sp.Z - cfg.SpacingInArray) := by
  simp only [advanceSpacing, h, if_true]
  split_ifs
  · right; exact ⟨rfl, rfl⟩
  · left; rfl

/-- Counterexample to C13: default box, spacing 50, capacity 8. The first row ends at
Y offset 100 and the second row starts at Y offset -50 and runs upwards again. -/
theorem C13_second_row_restarts_at_low_Y :
    (SpawnActorsInArray gridConfig8 (acceptingHost []) (Spawner.initial true)).map
        (fun t => attemptLocations t.log) =
      some [{ X := 50, Y := -50, Z := 50 }, { X := 50, Y := 0, Z := 50 },
            { X := 50, Y := 50, Z := 50 }, { X := 50, Y := 100, Z := 50 },
            { X := 0, Y := -50, Z := 50 }, { X := 0, Y := 0, Z := 50 },
            { X := 0, Y := 50, Z := 50 }, { X := 0, Y := 100, Z := 50 }] := by
  obtain ⟨t, ht, -⟩ := arrayLoop_isSome gridConfig8 (acceptingHost []) 8
    (initialSpacing gridConfig8) (Spawner.initial true) rfl (by unfold IndexOk; decide)
  have h := (arrayLoop_attempts gridConfig8 (acceptingHost []) 8
    (initialSpacing gridConfig8) (Spawner.initial true) t ht).2 rfl rfl rfl
  have hC : gridConfig8.HowManyToSpawn.toNat = 8 := by decide
  rw [SpawnActorsInArray_eq, hC, ht, Option.map_some', h]
  simp [gridOffsets, advanceSpacing, initialSpacing, gridConfig8, defaultConfig,
    Spawner.initial, attemptLocations, FVector.add]
  norm_num

/-- C13, amended. With the position flags off, the locations of the calls of
`SpawnActor` made by the grid fill are the actor location plus the offsets of
`gridOffsets`, and for consecutive offsets `p`, `q`: when `p` ends a row
(`p.Y > BoxExtent.Y - SpacingInArray`) the X axis is stepped (or wraps to
`BoxExtent.X - SpacingInArray` together with a step down in Z) and `q.Y` is the row
start `-BoxExtent.Y + SpacingInArray`; otherwise `q.Y = p.Y + SpacingInArray`. Every row
starts at the same Y and runs in the same direction. -/
theorem C13_grid_rows_run_in_same_direction (cfg : Config) (host : Host) (s : Spawner)
    (hx : cfg.bRandomLocationX = false) (hy : cfg.bRandomLocationY = false)
    (hz : cfg.bRandomLocationZ = false) :
    (∀ t, SpawnActorsInArray cfg host s = some t →
      attemptLocations t.log = attemptLocations s.log ++
        (gridOffsets cfg cfg.HowManyToSpawn.toNat (initialSpacing cfg)).map
          (fun o => cfg.ActorLocation.add o)) ∧
    List.Chain'
      (fun p q =>
        if p.Y > cfg.LocalBoxExtent.Y - cfg.SpacingInArray then
          q.Y = -cfg.LocalBoxExtent.Y + cfg.SpacingInArray ∧
          (q.X = p.X - cfg.SpacingInArray ∨
            (q.X = cfg.LocalBoxExtent.X - cfg.SpacingInArray ∧
              q.Z = p.Z - cfg.SpacingInArray))
        else q.Y = p.Y + cfg.SpacingInArray)
      (gridOffsets cfg cfg.HowManyToSpawn.toNat (initialSpacing cfg)) ∧
    (cfg.bSpawnActorsInOrder = true → IndexOk cfg s →
      ∃ t, SpawnActorsInArray cfg host s = some t) := by
  refine ⟨fun t h => ?_, ?_, fun hord hok => ?_⟩
  · rw [SpawnActorsInArray_eq] at h
    exact (arrayLoop_attempts cfg host _ _ s t h).2 hx hy hz
  · refine List.Chain'.imp ?_ (gridOffsets_chain cfg _ _)
    intro p q hq
    subst hq
    split_ifs with hrow
    · exact ⟨by rw [advanceSpacing_Y, if_pos hrow], advanceSpacing_row_end cfg p hrow⟩
    · rw [advanceSpacing_Y, if_neg hrow]
  · obtain ⟨t, ht, -⟩ := arrayLoop_isSome cfg host cfg.HowManyToSpawn.toNat
      (initialSpacing cfg) s hord hok
    exact ⟨t, ht⟩

/-- Witness of the amended C13 at the default box with capacity 8. -/
theorem C13_grid_rows_run_in_same_direction_witness :
    (∀ t, SpawnActorsInArray gridConfig8 (acceptingHost []) (Spawner.initial true) = some t →
      attemptLocations t.log = attemptLocations (Spawner.initial true).log ++
        (gridOffsets gridConfig8 gridConfig8.HowManyToSpawn.toNat
          (initialSpacing gridConfig8)).map (fun o => gridConfig8.ActorLocation.add o)) ∧
    List.Chain'
      (fun p q =>
        if p.Y > gridConfig8.LocalBoxExtent.Y - gridConfig8.SpacingInArray then
          q.Y = -gridConfig8.LocalBoxExtent.Y + gridConfig8.SpacingInArray ∧
          (q.X = p.X - gridConfig8.SpacingInArray ∨
            (q.X = gridConfig8.LocalBoxExtent.X - gridConfig8.SpacingInArray ∧
              q.Z = p.Z - gridConfig8.SpacingInArray))
        else q.Y = p.Y + gridConfig8.SpacingInArray)
      (gridOffsets gridConfig8 gridConfig8.HowManyToSpawn.toNat
        (initialSpacing gridConfig8)) ∧
    (gridConfig8.bSpawnActorsInOrder = true → IndexOk gridConfig8 (Spawner.initial true) →
      ∃ t, SpawnActorsInArray gridConfig8 (acceptingHost []) (Spawner.initial true) = some t) :=
  C13_grid_rows_run_in_same_direction gridConfig8 (acceptingHost []) (Spawner.initial true)
    rfl rfl rfl

/-- C14 (code defect). Box extent (100, 10, 100), spacing 50, capacity 1, position flags
off. The grid fill calls `SpawnActor` at the actor location plus (0, 40, 50): the row
start `-BoxExtent.Y + SpacingInArray` is assigned without a check against the box, and
40 is larger than the extent 10 in Y, where the claim requires `|y| ≤ 10`. All values of
this run are exact in `float`. -/
theorem C14_offset_outside_flat_box :
    (SpawnActorsInArray flatGridConfig (acceptingHost []) (Spawner.initial true)).map
        (fun t => attemptLocations t.log) = some [{ X := 0, Y := 40, Z := 50 }] ∧
    ¬ |(40 : ℚ)| ≤ flatGridConfig.LocalBoxExtent.Y := by
  constructor
  · obtain ⟨t, ht, -⟩ := arrayLoop_isSome flatGridConfig (acceptingHost []) 1
      (initialSpacing flatGridConfig) (Spawner.initial true) rfl (by unfold IndexOk; decide)
    have h := (arrayLoop_attempts flatGridConfig (acceptingHost []) 1
      (initialSpacing flatGridConfig) (Spawner.initial true) t ht).2 rfl rfl rfl
    have hC : flatGridConfig.HowManyToSpawn.toNat = 1 := by decide
    rw [SpawnActorsInArray_eq, hC, ht, Option.map_some', h]
    simp [gridOffsets, advanceSpacing, initialSpacing, flatGridConfig, defaultConfig,
      Spawner.initial, attemptLocations, FVector.add]
    norm_num
  · simp [flatGridConfig]
    norm_num

/-- In a box of extent (100, 100, 100) with spacing 50 the loop is left in iteration
37, after the 36 offsets of `grid36`. -/
theorem gridOffsets_box100 (cfg : Config)
    (hE : cfg.LocalBoxExtent = { X := 100, Y := 100, Z := 100 })
    (hd : cfg.SpacingInArray = 50) :
    gridOffsets cfg 37 (initialSpacing cfg) = grid36 := by
  simp [gridOffsets, advanceSpacing, initialSpacing, hE, hd, grid36, gridLayer, gridRow]
  norm_num

theorem gridOffsets_box100_take (cfg : Config)
    (hE : cfg.LocalBoxExtent = { X := 100, Y := 100, Z := 100 })
    (hd : cfg.SpacingInArray = 50) (n : Nat) :
    gridOffsets cfg n (initialSpacing cfg) = grid36.take n := by
  have h37 := gridOffsets_box100 cfg hE hd
  have hlen : grid36.length = 36 := rfl
  rcases Nat.le_total n 37 with hn | hn
  · obtain ⟨k, hk⟩ := Nat.exists_eq_add_of_le hn
    rw [gridOffsets_take cfg n k, ← hk, h37]
  · obtain ⟨k, rfl⟩ := Nat.exists_eq_add_of_le hn
    rw [gridOffsets_stable cfg 37 k _ (by rw [h37, hlen]; omega), h37,
      List.take_of_length_le (by rw [hlen]; omega)]

/-- C20. Box extent (100, 100, 100), spacing 50, position flags off. The grid fill
calls `SpawnActor` at the actor location plus the first `HowManyToSpawn` offsets of
`grid36`: three layers (Z offset 50, 0, -50) of three rows (X offset 50, 0, -50) of the
four Y offsets -50, 0, 50, 100, in that order, starting with (50, -50, 50). With a
capacity of 36 or more these are exactly the 36 offsets of `grid36`, with a capacity
`c < 36` exactly the first `c` of them. In order mode with a valid cursor the grid fill
does not abort. -/
theorem C20_grid_of_box100_is_grid36 (cfg : Config) (host : Host) (s : Spawner)
    (hE : cfg.LocalBoxExtent = { X := 100, Y := 100, Z := 100 })
    (hd : cfg.SpacingInArray = 50)
    (hx : cfg.bRandomLocationX = false) (hy : cfg.bRandomLocationY = false)
    (hz : cfg.bRandomLocationZ = false) :
    (∀ t, SpawnActorsInArray cfg host s = some t →
      attemptLocations t.log = attemptLocations s.log ++
        (grid36.take cfg.HowManyToSpawn.toNat).map (fun o => cfg.ActorLocation.add o) ∧
      attempts t.log = attempts s.log + min cfg.HowManyToSpawn.toNat 36 ∧
      (36 ≤ cfg.HowManyToSpawn →
        attempts t.log = attempts s.log + 36 ∧
        attemptLocations t.log = attemptLocations s.log ++
          grid36.map (fun o => cfg.ActorLocation.add o))) ∧
    grid36.length = 36 ∧
    grid36.head? = some { X := 50, Y := -50, Z := 50 } ∧
    (cfg.bSpawnActorsInOrder = true → IndexOk cfg s →
      ∃ t, SpawnActorsInArray cfg host s = some t) := by
  have hg := gridOffsets_box100_take cfg hE hd cfg.HowManyToSpawn.toNat
  have hlen : grid36.length = 36 := rfl
  refine ⟨fun t h => ?_, hlen, rfl, fun hord hok => ?_⟩
  · rw [SpawnActorsInArray_eq] at h
    obtain ⟨a1, a2⟩ := arrayLoop_attempts cfg host _ _ s t h
    have a3 := a2 hx hy hz
    rw [hg] at a1 a3
    rw [List.length_take, hlen] at a1
    refine ⟨a3, a1, fun hC => ?_⟩
    have h36 : 36 ≤ cfg.HowManyToSpawn.toNat := by omega
    rw [List.take_of_length_le (by rw [hlen]; exact h36)] at a3
    exact ⟨by rw [a1]; omega, a3⟩
  · obtain ⟨t, ht, -⟩ := arrayLoop_isSome cfg host cfg.HowManyToSpawn.toNat
      (initialSpacing cfg) s hord hok
    exact ⟨t, ht⟩

/-- Witness of C20 at capacity 40. -/
theorem C20_grid_of_box100_is_grid36_witness :
    gridConfig40.LocalBoxExtent = { X := 100, Y := 100, Z := 100 } ∧
    gridConfig40.SpacingInArray = 50 ∧
    (∀ t, SpawnActorsInArray gridConfig40 (acceptingHost []) (Spawner.initial true)
        = some t →
      attemptLocations t.log = attemptLocations (Spawner.initial true).log ++
        (grid36.take gridConfig40.HowManyToSpawn.toNat).map
          (fun o => gridConfig40.ActorLocation.add o) ∧
      attempts t.log = attempts (Spawner.initial true).log +
        min gridConfig40.HowManyToSpawn.toNat 36 ∧
      (36 ≤ gridConfig40.HowManyToSpawn →
        attempts t.log = attempts (Spawner.initial true).log + 36 ∧
        attemptLocations t.log = attemptLocations (Spawner.initial true).log ++
          grid36.map (fun o => gridConfig40.ActorLocation.add o))) ∧
    (gridConfig40.bSpawnActorsInOrder = true →
      IndexOk gridConfig40 (Spawner.initial true) →
      ∃ t, SpawnActorsInArray gridConfig40 (acceptingHost []) (Spawner.initial true)
        = some t) :=
  ⟨rfl, rfl,
    (C20_grid_of_box100_is_grid36 gridConfig40 (acceptingHost []) (Spawner.initial true)
      rfl rfl rfl rfl rfl).1,
    (C20_grid_of_box100_is_grid36 gridConfig40 (acceptingHost []) (Spawner.initial true)
      rfl rfl rfl rfl rfl).2.2.2⟩

/-- One iteration of the loop of `CleanCurrentlySpawnedActors`. -/
theorem cleanLoop_step (host : Host) (i : Nat) (arr : List (Option Nat))
    (h : i < arr.length) :
    cleanLoop host i arr =
      if isStale host arr[i] then cleanLoop host (i + 1) (arr.eraseIdx i)
      else cleanLoop host (i + 1) arr := by
  rw [cleanLoop]
  simp only [h, dite_true]
  cases arr[i] with
  | none => simp [isStale]
  | some a => simp only [isStale]

theorem cleanLoop_done (host : Host) (i : Nat) (arr : List (Option Nat))
    (h : arr.length ≤ i) : cleanLoop host i arr = arr := by
  rw [cleanLoop]
  simp [Nat.not_lt.mpr h]

/-- The loop from index `i` on keeps the first `i` entries and scans the rest. -/
theorem cleanLoop_append (host : Host) (pre rest : List (Option Nat)) :
    cleanLoop host pre.length (pre ++ rest) = pre ++ cleanScan host rest := by
  induction rest using cleanScan.induct host generalizing pre with
  | case1 => simp [cleanScan, cleanLoop_done]
  | case2 a hs =>
    rw [cleanLoop_step host _ _ (by simp)]
    simp only [List.getElem_append_right (le_refl _), Nat.sub_self, List.getElem_cons_zero, hs,
      if_true, cleanScan]
    rw [List.eraseIdx_append_of_length_le (le_refl _), Nat.sub_self]
    simp [cleanLoop_done]
  | case3 a hs =>
    rw [cleanLoop_step host _ _ (by simp)]
    simp only [List.getElem_append_right (le_refl _), Nat.sub_self, List.getElem_cons_zero, hs,
      cleanScan]
    simp [cleanLoop_done]
  | case4 a b r hs ih =>
    rw [cleanLoop_step host _ _ (by simp)]
    simp only [List.getElem_append_right (le_refl _), Nat.sub_self, List.getElem_cons_zero, hs,
      if_true, cleanScan]
    rw [List.eraseIdx_append_of_length_le (le_refl _), Nat.sub_self]
    simp only [List.eraseIdx_cons_zero]
    have := ih (pre ++ [b])
    simp only [List.length_append, List.length_singleton, List.append_assoc,
      List.singleton_append] at this
    exact this
  | case5 a b r hs ih =>
    rw [cleanLoop_step host _ _ (by simp)]
    simp only [List.getElem_append_right (le_refl _), Nat.sub_self, List.getElem_cons_zero, hs,
      cleanScan]
    have := ih (pre ++ [a])
    simp only [List.length_append, List.length_singleton, List.append_assoc,
      List.singleton_append] at this
    simpa using this

theorem cleanLoop_zero (host : Host) (arr : List (Option Nat)) :
    cleanLoop host 0 arr = cleanScan host arr := by
  simpa using cleanLoop_append host [] arr

theorem cleanScan_sublist (host : Host) (l : List (Option Nat)) :
    (cleanScan host l).Sublist l := by
  induction l using cleanScan.induct host with
  | case1 => simp [cleanScan]
  | case2 a hs => simp [cleanScan, hs]
  | case3 a hs => simp [cleanScan, hs]
  | case4 a b r hs ih =>
    simp only [cleanScan, hs, if_true]
    exact (ih.cons₂ b).cons a
  | case5 a b r hs ih =>
    simp only [cleanScan, hs]
    exact ih.cons₂ a

theorem filter_cons_stale (host : Host) (a : Option Nat) (l : List (Option Nat))
    (h : isStale host a = true) :
    (a :: l).filter (fun x => !isStale host x) = l.filter (fun x => !isStale host x) := by
  simp [List.filter_cons, h]

theorem filter_cons_live (host : Host) (a : Option Nat) (l : List (Option Nat))
    (h : isStale host a = false) :
    (a :: l).filter (fun x => !isStale host x) =
      a :: l.filter (fun x => !isStale host x) := by
  simp [List.filter_cons, h]

theorem filter_sublist_cleanScan (host : Host) (l : List (Option Nat)) :
    (l.filter fun a => !isStale host a).Sublist (cleanScan host l) := by
  induction l using cleanScan.induct host with
  | case1 => simp [cleanScan]
  | case2 a hs => simp [cleanScan, hs]
  | case3 a hs => simp [cleanScan, hs]
  | case4 a b r hs ih =>
    simp only [cleanScan, hs, if_true]
    rw [filter_cons_stale host a _ hs]
    cases hb : isStale host b with
    | false =>
      rw [filter_cons_live host b _ hb]
      exact ih.cons₂ b
    | true =>
      rw [filter_cons_stale host b _ hb]
      exact ih.cons b
  | case5 a b r hs ih =>
    have ha : isStale host a = false := by simpa using hs
    simp only [cleanScan, ha, Bool.false_eq_true, if_false]
    rw [filter_cons_live host a _ ha]
    exact ih.cons₂ a

theorem cleanScan_eq_filter (host : Host) (l : List (Option Nat))
    (h : List.Chain' (fun a b => ¬ (isStale host a = true ∧ isStale host b = true)) l) :
    cleanScan host l = l.filter fun a => !isStale host a := by
  induction l using cleanScan.induct host with
  | case1 => simp [cleanScan]
  | case2 a hs => simp [cleanScan, hs]
  | case3 a hs => simp [cleanScan, hs]
  | case4 a b r hs ih =>
    rw [List.chain'_cons] at h
    obtain ⟨hab, hrest⟩ := h
    have hb : isStale host b = false := by
      cases hbb : isStale host b with
      | false => rfl
      | true => exact absurd ⟨hs, hbb⟩ hab
    simp only [cleanScan, hs, if_true]
    rw [filter_cons_stale host a _ hs, filter_cons_live host b _ hb,
      ih (List.Chain'.tail hrest)]
  | case5 a b r hs ih =>
    have ha : isStale host a = false := by simpa using hs
    rw [List.chain'_cons] at h
    simp only [cleanScan, ha, Bool.false_eq_true, if_false]
    rw [filter_cons_live host a _ ha, ih h.2]

/-- C18. `CleanCurrentlySpawnedActors` never drops a live entry. The array it leaves is
a subsequence of the array it was given (order kept); the entries that are non-null and
not being destroyed, in their order, are a subsequence of the array it leaves, so each
of them is still there; and when no two stale entries are next to each other in the
array it was given, the array it leaves is exactly the list of the live entries and
holds no stale entry. -/
theorem C18_clean_keeps_every_live_entry (cfg : Config) (host : Host) (s : Spawner) :
    ((CleanCurrentlySpawnedActors cfg host s).2.CurrentlySpawnedActors).Sublist
      s.CurrentlySpawnedActors ∧
    (s.CurrentlySpawnedActors.filter fun a => !isStale host a).Sublist
      (CleanCurrentlySpawnedActors cfg host s).2.CurrentlySpawnedActors ∧
    (∀ a ∈ s.CurrentlySpawnedActors, isStale host a = false →
      a ∈ (CleanCurrentlySpawnedActors cfg host s).2.CurrentlySpawnedActors) ∧
    (List.Chain' (fun a b => ¬ (isStale host a = true ∧ isStale host b = true))
        s.CurrentlySpawnedActors →
      (CleanCurrentlySpawnedActors cfg host s).2.CurrentlySpawnedActors =
        (s.CurrentlySpawnedActors.filter fun a => !isStale host a) ∧
      ∀ a ∈ (CleanCurrentlySpawnedActors cfg host s).2.CurrentlySpawnedActors,
        isStale host a = false) := by
  have hr : (CleanCurrentlySpawnedActors cfg host s).2.CurrentlySpawnedActors =
      cleanScan host s.CurrentlySpawnedActors := by
    simp [CleanCurrentlySpawnedActors, cleanLoop_zero]
  rw [hr]
  have hsub := filter_sublist_cleanScan host s.CurrentlySpawnedActors
  refine ⟨cleanScan_sublist host _, hsub, fun a ha hlive => ?_, fun hch => ?_⟩
  · apply hsub.subset
    rw [List.mem_filter]
    exact ⟨ha, by simp [hlive]⟩
  · rw [cleanScan_eq_filter host _ hch]
    refine ⟨rfl, fun a ha => ?_⟩
    rw [List.mem_filter] at ha
    simpa using ha.2

/-- Witness of C18: `[A, B, C, D]` with only B being destroyed becomes `[A, C, D]`. -/
theorem C18_clean_keeps_every_live_entry_witness :
    List.Chain' (fun a b => ¬ (isStale (acceptingHost [2]) a = true ∧
        isStale (acceptingHost [2]) b = true)) fourTracked.CurrentlySpawnedActors ∧
    (CleanCurrentlySpawnedActors defaultConfig (acceptingHost [2])
        fourTracked).2.CurrentlySpawnedActors =
      (fourTracked.CurrentlySpawnedActors.filter fun a => !isStale (acceptingHost [2]) a) ∧
    (fourTracked.CurrentlySpawnedActors.filter fun a => !isStale (acceptingHost [2]) a) =
      [some 1, some 3, some 4] := by
  have hch : List.Chain' (fun a b => ¬ (isStale (acceptingHost [2]) a = true ∧
      isStale (acceptingHost [2]) b = true)) fourTracked.CurrentlySpawnedActors := by
    simp [fourTracked, Spawner.initial, isStale, acceptingHost]
  exact ⟨hch,
    ((C18_clean_keeps_every_live_entry defaultConfig (acceptingHost [2])
      fourTracked).2.2.2 hch).1,
    by simp [fourTracked, Spawner.initial, isStale, acceptingHost, List.filter]⟩

theorem AddUnique_nodup (l : List (Option Nat)) (a : Option Nat) (h : l.Nodup) :
    (AddUnique l a).Nodup := by
  unfold AddUnique
  split_ifs with hmem
  · exact h
  · rw [List.nodup_append]
    refine ⟨h, List.nodup_singleton a, ?_⟩
    intro x hx hx'
    rw [List.mem_singleton] at hx'
    subst hx'
    exact hmem hx

/-- A call of `SpawnActor` changes the tracked actors at most by one `AddUnique`. -/
theorem SpawnActor_tracked (cfg : Config) (host : Host) (loc : FVector) (rot : FRotator)
    (idx : Int) (s t : Spawner) (h : SpawnActor cfg host loc rot idx s = some t) :
    t.CurrentlySpawnedActors = s.CurrentlySpawnedActors ∨
    ∃ a, t.CurrentlySpawnedActors = AddUnique s.CurrentlySpawnedActors (some a) := by
  unfold SpawnActor at h
  by_cases hw : host.hasWorld = true
  · by_cases hn : cfg.SpawnableActors.length > 0
    · by_cases hneg : idx < 0
      · simp [hw, hn, hneg] at h
      · cases hget : cfg.SpawnableActors[idx.toNat]? with
        | none => simp [hw, hn, hneg, hget] at h
        | some cls =>
          cases cls with
          | none =>
            simp [hw, hn, hneg, hget] at h
            subst h
            left
            simp [Spawner.emit]
          | some c =>
            simp only [hw, hn, hneg, hget, if_true, if_false] at h
            simp only [Option.some.injEq] at h
            subst h
            cases hres : host.SpawnActor (s.emit (Event.attempt loc rot idx)).hostSpawnCalls
                c loc rot with
            | none =>
              left
              cases cfg.SpawningFX <;> cases cfg.SpawningSound <;> simp [Spawner.emit]
            | some a =>
              right
              refine ⟨a, ?_⟩
              cases cfg.SpawningFX <;> cases cfg.SpawningSound <;> simp [Spawner.emit]
    · simp [hw, hn] at h
      subst h
      left
      simp [Spawner.emit]
  · simp [hw] at h
    subst h
    left
    simp [Spawner.emit]

theorem SpawnActor_nodup (cfg : Config) (host : Host) (loc : FVector) (rot : FRotator)
    (idx : Int) (s t : Spawner) (h : SpawnActor cfg host loc rot idx s = some t)
    (hn : s.CurrentlySpawnedActors.Nodup) : t.CurrentlySpawnedActors.Nodup := by
  rcases SpawnActor_tracked cfg host loc rot idx s t h with e | ⟨a, e⟩
  · rw [e]; exact hn
  · rw [e]; exact AddUnique_nodup _ _ hn

theorem spawnNext_nodup (cfg : Config) (host : Host) (s t : Spawner)
    (h : spawnNext cfg host s = some t) (hn : s.CurrentlySpawnedActors.Nodup) :
    t.CurrentlySpawnedActors.Nodup := by
  unfold spawnNext at h
  apply SpawnActor_nodup _ _ _ _ _ _ _ h
  have hl := GetSpawnLocation_frame cfg host s
  have hr := GetSpawnRotation_frame cfg host (GetSpawnLocation cfg host s).2
  have hk := GetSpawnableActorIndex_frame cfg host
    (GetSpawnRotation cfg host (GetSpawnLocation cfg host s).2).2
  unfold EqUpToRand at hl hr
  simp only at hk
  rw [hk.2.2.1, hr.2.2.1, hl.2.2.1]
  exact hn

theorem batchLoop_nodup (cfg : Config) (host : Host) (i : Nat) (s t : Spawner)
    (h : batchLoop cfg host i s = some t) (hn : s.CurrentlySpawnedActors.Nodup) :
    t.CurrentlySpawnedActors.Nodup := by
  induction i, s using batchLoop.induct cfg host with
  | case1 i s hlt hnone =>
    rw [batchLoop] at h
    simp [hlt, hnone] at h
  | case2 i s hlt s1 hsome ih =>
    rw [batchLoop] at h
    simp only [hlt, if_true, hsome] at h
    exact ih h (spawnNext_nodup cfg host s s1 hsome hn)
  | case3 i s hge =>
    rw [batchLoop] at h
    simp only [hge, if_false, Option.some.injEq] at h
    subst h
    exact hn

theorem arrayLoop_nodup (cfg : Config) (host : Host) (n : Nat) (sp : FVector)
    (s t : Spawner) (h : arrayLoop cfg host n sp s = some t)
    (hn : s.CurrentlySpawnedActors.Nodup) : t.CurrentlySpawnedActors.Nodup := by
  induction n generalizing sp s with
  | zero =>
    simp only [arrayLoop, Option.some.injEq] at h
    subst h
    exact hn
  | succ n ih =>
    simp only [arrayLoop] at h
    split_ifs at h with hz
    · simp only [Option.some.injEq] at h
      subst h
      exact hn
    · split at h
      · simp at h
      · rename_i s1 hs1
        apply ih _ _ h
        apply SpawnActor_nodup _ _ _ _ _ _ _ hs1
        have hl := GetSpawnLocation_frame cfg host s
        have hr := GetSpawnRotation_frame cfg host (GetSpawnLocation cfg host s).2
        have hk := GetSpawnableActorIndex_frame cfg host
          (GetSpawnRotation cfg host (GetSpawnLocation cfg host s).2).2
        unfold EqUpToRand at hl hr
        simp only at hk
        rw [hk.2.2.1, hr.2.2.1, hl.2.2.1]
        exact hn

theorem CleanCurrentlySpawnedActors_nodup (cfg : Config) (host : Host) (s : Spawner)
    (hn : s.CurrentlySpawnedActors.Nodup) :
    (CleanCurrentlySpawnedActors cfg host s).2.CurrentlySpawnedActors.Nodup := by
  have hr : (CleanCurrentlySpawnedActors cfg host s).2.CurrentlySpawnedActors =
      cleanScan host s.CurrentlySpawnedActors := by
    simp [CleanCurrentlySpawnedActors, cleanLoop_zero]
  rw [hr]
  exact hn.sublist (cleanScan_sublist host _)

theorem Tick_nodup (cfg : Config) (host : Host) (dt : ℚ) (s t : Spawner)
    (h : Tick cfg host dt s = some t) (hn : s.CurrentlySpawnedActors.Nodup) :
    t.CurrentlySpawnedActors.Nodup := by
  have hc := CleanCurrentlySpawnedActors_nodup cfg host s hn
  cases hact : s.bIsActive with
  | false =>
    rw [Tick_inactive cfg host dt s hact, Option.some.injEq] at h
    subst h
    exact hn
  | true =>
    cases hcan : s.bCanSpawn with
    | false =>
      rw [Tick_waiting cfg host dt s hact hcan] at h
      split_ifs at h
      · simp only [Option.some.injEq] at h
        subst h
        exact hn
      · simp only [Option.some.injEq] at h
        subst h
        have := (resetTimer_frame cfg host s).2.1
        simp only at this ⊢
        rw [this]
        exact hn
    | true =>
      cases hbatch : cfg.bSpawnAllAtOnce with
      | true =>
        rw [Tick_batch cfg host dt s hact hcan hbatch] at h
        simp only [Option.map_eq_some'] at h
        obtain ⟨u, hu, rfl⟩ := h
        split_ifs at hu with hok
        · exact batchLoop_nodup cfg host 0 _ u hu hc
        · simp only [Option.some.injEq] at hu
          subst hu
          exact hc
      | false =>
        rw [Tick_trickle cfg host dt s hact hcan hbatch] at h
        simp only [Option.map_eq_some'] at h
        obtain ⟨u, hu, rfl⟩ := h
        split_ifs at hu with hok
        · exact spawnNext_nodup cfg host _ u hu hc
        · simp only [Option.some.injEq] at hu
          subst hu
          exact hc

theorem runTicks_nodup (cfg : Config) (frames : List (Host × ℚ)) (s t : Spawner)
    (h : runTicks cfg frames s = some t) (hn : s.CurrentlySpawnedActors.Nodup) :
    t.CurrentlySpawnedActors.Nodup := by
  induction frames generalizing s with
  | nil =>
    simp only [runTicks, Option.some.injEq] at h
    subst h
    exact hn
  | cons f fs ih =>
    simp only [runTicks] at h
    split at h
    · simp at h
    · rename_i s1 hs1
      exact ih s1 h (Tick_nodup cfg f.1 f.2 s s1 hs1 hn)

theorem BeginPlay_nodup (cfg : Config) (host : Host) (s t : Spawner)
    (h : BeginPlay cfg host s = some t) (hn : s.CurrentlySpawnedActors.Nodup) :
    t.CurrentlySpawnedActors.Nodup := by
  unfold BeginPlay at h
  simp only [Option.map_eq_some'] at h
  obtain ⟨u, hu, rfl⟩ := h
  rw [(resetTimer_frame cfg host u).2.1]
  split_ifs at hu with hgrid
  · simp only [Option.map_eq_some'] at hu
    obtain ⟨v, hv, rfl⟩ := hu
    rw [SpawnActorsInArray_eq] at hv
    exact arrayLoop_nodup cfg host _ _ s v hv hn
  · simp only [Option.some.injEq] at hu
    subst hu
    exact hn

/-- C17. `CurrentlySpawnedActors` never holds the same entry twice. Started with no
tracked actor, after `BeginPlay` and any sequence of `Tick`s with any host answers (a
host that returns an already tracked actor included) the array is duplicate-free; and
on a duplicate-free array every single call of `SpawnActor` and every
`CleanCurrentlySpawnedActors` leaves a duplicate-free array. In order mode, started
with cursor 0, the run does not abort. -/
theorem C17_tracked_actors_have_no_duplicates (cfg : Config) (h0 : Host)
    (frames : List (Host × ℚ)) (s0 : Spawner) (hempty : s0.CurrentlySpawnedActors = []) :
    (∀ s1 s, BeginPlay cfg h0 s0 = some s1 → runTicks cfg frames s1 = some s →
      s.CurrentlySpawnedActors.Nodup) ∧
    (∀ (host : Host) (loc : FVector) (rot : FRotator) (idx : Int) (s t : Spawner),
      s.CurrentlySpawnedActors.Nodup → SpawnActor cfg host loc rot idx s = some t →
      t.CurrentlySpawnedActors.Nodup) ∧
    (∀ (host : Host) (s : Spawner), s.CurrentlySpawnedActors.Nodup →
      (CleanCurrentlySpawnedActors cfg host s).2.CurrentlySpawnedActors.Nodup) ∧
    (cfg.bSpawnActorsInOrder = true → s0.CurrentSpawningIndex = 0 →
      ∃ s1 s, BeginPlay cfg h0 s0 = some s1 ∧ runTicks cfg frames s1 = some s) := by
  refine ⟨fun s1 s hb hr => ?_, fun host loc rot idx s t hn h => ?_,
    fun host s hn => CleanCurrentlySpawnedActors_nodup cfg host s hn, fun hord hidx => ?_⟩
  · have h1 := BeginPlay_nodup cfg h0 s0 s1 hb (by rw [hempty]; exact List.nodup_nil)
    exact runTicks_nodup cfg frames s1 s hr h1
  · exact SpawnActor_nodup cfg host loc rot idx s t h hn
  · have hok : IndexOk cfg s0 := by
      unfold IndexOk
      rw [hidx]
      omega
    obtain ⟨s1, hs1, hok1⟩ := BeginPlay_isSome cfg h0 s0 hord hok
    obtain ⟨s, hs, -⟩ := runTicks_isSome cfg frames s1 hord hok1
    exact ⟨s1, s, hs1, hs⟩

/-- Witness of C17: batch mode with capacity 5 and an accepting host over three
frames. -/
theorem C17_tracked_actors_have_no_duplicates_witness :
    (Spawner.initial true).CurrentlySpawnedActors = [] ∧
    (∀ s1 s, BeginPlay batchConfig (acceptingHost []) (Spawner.initial true) = some s1 →
      runTicks batchConfig [(acceptingHost [], 1), (acceptingHost [], 1),
        (acceptingHost [], 1)] s1 = some s →
      s.CurrentlySpawnedActors.Nodup) ∧
    (batchConfig.bSpawnActorsInOrder = true →
      (Spawner.initial true).CurrentSpawningIndex = 0 →
      ∃ s1 s, BeginPlay batchConfig (acceptingHost []) (Spawner.initial true) = some s1 ∧
        runTicks batchConfig [(acceptingHost [], 1), (acceptingHost [], 1),
          (acceptingHost [], 1)] s1 = some s) :=
  ⟨rfl,
    (C17_tracked_actors_have_no_duplicates batchConfig (acceptingHost [])
      [(acceptingHost [], 1), (acceptingHost [], 1), (acceptingHost [], 1)]
      (Spawner.initial true) rfl).1,
    (C17_tracked_actors_have_no_duplicates batchConfig (acceptingHost [])
      [(acceptingHost [], 1), (acceptingHost [], 1), (acceptingHost [], 1)]
      (Spawner.initial true) rfl).2.2.2⟩

theorem GetSpawnableActorIndex_valid (cfg : Config) (host : Host) (s : Spawner)
    (hN : 0 < cfg.SpawnableActors.length) (hsel : IndexChoiceOk cfg host s) :
    0 ≤ (GetSpawnableActorIndex cfg host s).1 ∧
    (GetSpawnableActorIndex cfg host s).1 < (cfg.SpawnableActors.length : Int) ∧
    IndexChoiceOk cfg host (GetSpawnableActorIndex cfg host s).2 := by
  unfold IndexChoiceOk at *
  by_cases hord : cfg.bSpawnActorsInOrder = true
  · simp only [hord, if_true] at hsel ⊢
    obtain ⟨k1, k2⟩ := GetSpawnableActorIndex_inOrder cfg host s hord hsel
    rw [k1]
    unfold IndexOk at hsel
    exact ⟨hsel.1, by omega, k2⟩
  · simp only [hord, if_false] at hsel ⊢
    have hord2 : cfg.bSpawnActorsInOrder = false := by simpa using hord
    simp only [GetSpawnableActorIndex, hord2, Bool.false_eq_true, if_false, randInt]
    obtain ⟨a, b⟩ := hsel s.randCalls 0 ((cfg.SpawnableActors.length : Int) - 1) (by omega)
    exact ⟨a, by omega, hsel⟩

/-- A call of `SpawnActor` with a world, a valid index and a non-null class at that
index asks the host once and tracks the actor it returns. -/
theorem SpawnActor_valid (cfg : Config) (host : Host) (loc : FVector) (rot : FRotator)
    (idx : Int) (s : Spawner) (hw : host.hasWorld = true) (h0 : 0 ≤ idx)
    (h1 : idx < (cfg.SpawnableActors.length : Int))
    (hnn : ∀ c ∈ cfg.SpawnableActors, c ≠ none) :
    ∃ t c, SpawnActor cfg host loc rot idx s = some t ∧
      t.hostSpawnCalls = s.hostSpawnCalls + 1 ∧
      t.CurrentSpawningIndex = s.CurrentSpawningIndex ∧
      attempts t.log = attempts s.log + 1 ∧
      t.CurrentlySpawnedActors =
        match host.SpawnActor s.hostSpawnCalls c loc rot with
        | some a => AddUnique s.CurrentlySpawnedActors (some a)
        | none => s.CurrentlySpawnedActors := by
  have hlt : idx.toNat < cfg.SpawnableActors.length := by omega
  have hn : cfg.SpawnableActors.length > 0 := by omega
  have hneg : ¬ idx < 0 := by omega
  have hget : cfg.SpawnableActors[idx.toNat]? = some cfg.SpawnableActors[idx.toNat] :=
    List.getElem?_eq_getElem hlt
  cases hc : cfg.SpawnableActors[idx.toNat] with
  | none =>
    exact absurd hc (hnn _ (List.getElem_mem hlt))
  | some c =>
    rw [hc] at hget
    refine ⟨_, c, by simp only [SpawnActor, hw, hn, hneg, hget, if_true, if_false]; rfl, ?_⟩
    cases hres : host.SpawnActor s.hostSpawnCalls c loc rot <;>
      cases cfg.SpawningFX <;> cases cfg.SpawningSound <;>
      simp [Spawner.emit, attempts, hres]

theorem IndexChoiceOk_inOrder (cfg : Config) (host : Host) (s : Spawner)
    (hord : cfg.bSpawnActorsInOrder = true) (hok : IndexOk cfg s) :
    IndexChoiceOk cfg host s := by
  unfold IndexChoiceOk
  simp only [hord, if_true]
  exact hok

theorem IndexChoiceOk_of_index_eq (cfg : Config) (host : Host) (s t : Spawner)
    (h : t.CurrentSpawningIndex = s.CurrentSpawningIndex) (hs : IndexChoiceOk cfg host s) :
    IndexChoiceOk cfg host t := by
  unfold IndexChoiceOk IndexOk at *
  rw [h]
  exact hs

/-- One iteration of the batch loop with a host that accepts with a fresh actor: one call
of `SpawnActor`, one more tracked actor. -/
theorem spawnNext_fresh (cfg : Config) (host : Host) (base : Nat)
    (tracked : List (Option Nat)) (s : Spawner) (hw : host.hasWorld = true)
    (hN : 0 < cfg.SpawnableActors.length) (hnn : ∀ c ∈ cfg.SpawnableActors, c ≠ none)
    (hsel : IndexChoiceOk cfg host s) (hfresh : FreshHost host base tracked)
    (hinv : TrackedSince host base tracked s) :
    ∃ t, spawnNext cfg host s = some t ∧
      t.CurrentlySpawnedActors.length = s.CurrentlySpawnedActors.length + 1 ∧
      attempts t.log = attempts s.log + 1 ∧
      IndexChoiceOk cfg host t ∧ TrackedSince host base tracked t := by
  have hl := GetSpawnLocation_frame cfg host s
  have hr := GetSpawnRotation_frame cfg host (GetSpawnLocation cfg host s).2
  have hk := GetSpawnableActorIndex_frame cfg host
    (GetSpawnRotation cfg host (GetSpawnLocation cfg host s).2).2
  unfold EqUpToRand at hl hr
  simp only at hk
  obtain ⟨-, -, l3, l4, -, l6, l7⟩ := hl
  obtain ⟨-, -, r3, r4, -, r6, r7⟩ := hr
  obtain ⟨-, -, k3, -, k6, k7⟩ := hk
  have hsel2 : IndexChoiceOk cfg host
      (GetSpawnRotation cfg host (GetSpawnLocation cfg host s).2).2 :=
    IndexChoiceOk_of_index_eq cfg host s _ (by rw [r4, l4]) hsel
  obtain ⟨v0, v1, v2⟩ := GetSpawnableActorIndex_valid cfg host _ hN hsel2
  obtain ⟨t, c, ht, t1, t2, t3, t4⟩ := SpawnActor_valid cfg host
    (GetSpawnLocation cfg host s).1
    (GetSpawnRotation cfg host (GetSpawnLocation cfg host s).2).1
    (GetSpawnableActorIndex cfg host
      (GetSpawnRotation cfg host (GetSpawnLocation cfg host s).2).2).1
    (GetSpawnableActorIndex cfg host
      (GetSpawnRotation cfg host (GetSpawnLocation cfg host s).2).2).2 hw v0 v1 hnn
  rw [k6, r6, l6] at t1 t4
  rw [k3, r3, l3] at t4
  rw [k7, r7, l7] at t3
  obtain ⟨hbase, hmem⟩ := hinv
  obtain ⟨a, ha, hnot, huniq⟩ := hfresh s.hostSpawnCalls hbase c
    (GetSpawnLocation cfg host s).1
    (GetSpawnRotation cfg host (GetSpawnLocation cfg host s).2).1
  rw [ha] at t4
  simp only at t4
  have hnew : some a ∉ s.CurrentlySpawnedActors := by
    intro hin
    rcases hmem _ hin with h1 | ⟨m, cls, loc, rot, m1, m2, m3⟩
    · exact hnot h1
    · exact huniq m m1 (by omega) cls loc rot m3
  have harr : t.CurrentlySpawnedActors = s.CurrentlySpawnedActors ++ [some a] := by
    rw [t4]
    simp [AddUnique, hnew]
  refine ⟨t, ht, by rw [harr]; simp, t3, ?_, ?_, ?_⟩
  · exact IndexChoiceOk_of_index_eq cfg host _ t t2 v2
  · omega
  · intro x hx
    rw [harr, List.mem_append, List.mem_singleton] at hx
    rcases hx with hx | hx
    · rcases hmem x hx with h1 | ⟨m, cls, loc, rot, m1, m2, m3⟩
      · exact Or.inl h1
      · exact Or.inr ⟨m, cls, loc, rot, m1, by omega, m3⟩
    · exact Or.inr ⟨s.hostSpawnCalls, c, _, _, hbase, by omega, by rw [ha, hx]⟩

/-- The batch loop with a host that accepts with fresh actors: from counter `i` and `L`
tracked actors it makes `ceil ((HowManyToSpawn - L - i) / 2)` iterations. -/
theorem batchLoop_fresh (cfg : Config) (host : Host) (base : Nat)
    (tracked : List (Option Nat)) (hw : host.hasWorld = true)
    (hN : 0 < cfg.SpawnableActors.length) (hnn : ∀ c ∈ cfg.SpawnableActors, c ≠ none)
    (hfresh : FreshHost host base tracked) (i : Nat) (s : Spawner)
    (hsel : IndexChoiceOk cfg host s) (hinv : TrackedSince host base tracked s) :
    ∃ t, batchLoop cfg host i s = some t ∧
      t.CurrentlySpawnedActors.length = s.CurrentlySpawnedActors.length +
        ((cfg.HowManyToSpawn - (s.CurrentlySpawnedActors.length : Int) - (i : Int)).toNat + 1) / 2 ∧
      attempts t.log = attempts s.log +
        ((cfg.HowManyToSpawn - (s.CurrentlySpawnedActors.length : Int) - (i : Int)).toNat + 1) / 2 := by
  induction i, s using batchLoop.induct cfg host with
  | case1 i s hlt hnone =>
    obtain ⟨t, ht, -⟩ := spawnNext_fresh cfg host base tracked s hw hN hnn hsel hfresh hinv
    rw [ht] at hnone
    simp at hnone
  | case2 i s hlt s1 hsome ih =>
    obtain ⟨t, ht, t1, t2, t3, t4⟩ :=
      spawnNext_fresh cfg host base tracked s hw hN hnn hsel hfresh hinv
    rw [ht, Option.some.injEq] at hsome
    subst hsome
    obtain ⟨u, hu, u1, u2⟩ := ih t3 t4
    refine ⟨u, ?_, ?_, ?_⟩
    · rw [batchLoop]
      simp only [hlt, if_true, ht]
      exact hu
    · rw [u1, t1]
      push_cast
      omega
    · rw [u2, t2, t1]
      push_cast
      omega
  | case3 i s hge =>
    refine ⟨s, ?_, ?_, ?_⟩
    · rw [batchLoop]
      simp only [hge, if_false]
    · have : (cfg.HowManyToSpawn - (s.CurrentlySpawnedActors.length : Int) - (i : Int)).toNat
          = 0 := by omega
      rw [this]
      omega
    · have : (cfg.HowManyToSpawn - (s.CurrentlySpawnedActors.length : Int) - (i : Int)).toNat
          = 0 := by omega
      rw [this]
      omega

/-- C19. Batch step with a world, a non-empty list of non-null classes, a valid choice
of index, `L` tracked actors after the capacity check, `L < HowManyToSpawn = C`, and a
host that accepts every spawn with a fresh actor: the step calls `SpawnActor`
`ceil ((C - L) / 2)` times and tracks that many more actors, because the bound
`C - Num()` of the loop is read again before every iteration while the counter grows. -/
theorem C19_batch_adds_half_of_free_capacity (cfg : Config) (host : Host) (dt : ℚ)
    (s : Spawner) (hact : s.bIsActive = true) (hcan : s.bCanSpawn = true)
    (hbatch : cfg.bSpawnAllAtOnce = true) (hw : host.hasWorld = true)
    (hN : 0 < cfg.SpawnableActors.length) (hnn : ∀ c ∈ cfg.SpawnableActors, c ≠ none)
    (hsel : IndexChoiceOk cfg host s)
    (hfresh : FreshHost host s.hostSpawnCalls
      (CleanCurrentlySpawnedActors cfg host s).2.CurrentlySpawnedActors)
    (hroom : ((CleanCurrentlySpawnedActors cfg host s).2.CurrentlySpawnedActors.length : Int)
      < cfg.HowManyToSpawn) :
    ∃ t, Tick cfg host dt s = some t ∧
      t.CurrentlySpawnedActors.length =
        (CleanCurrentlySpawnedActors cfg host s).2.CurrentlySpawnedActors.length +
        ((cfg.HowManyToSpawn -
          ((CleanCurrentlySpawnedActors cfg host s).2.CurrentlySpawnedActors.length : Int)).toNat
          + 1) / 2 ∧
      attempts t.log = attempts s.log +
        ((cfg.HowManyToSpawn -
          ((CleanCurrentlySpawnedActors cfg host s).2.CurrentlySpawnedActors.length : Int)).toNat
          + 1) / 2 := by
  have hc := CleanCurrentlySpawnedActors_frame cfg host s
  simp only at hc
  obtain ⟨-, -, c3, -, c5, -, -⟩ := hc
  have hcalls : (CleanCurrentlySpawnedActors cfg host s).2.hostSpawnCalls = s.hostSpawnCalls := by
    simp [CleanCurrentlySpawnedActors]
  have hok := (CleanCurrentlySpawnedActors_true cfg host s).mpr hroom
  have hsel2 := IndexChoiceOk_of_index_eq cfg host s _ c3 hsel
  have hinv : TrackedSince host s.hostSpawnCalls
      (CleanCurrentlySpawnedActors cfg host s).2.CurrentlySpawnedActors
      (CleanCurrentlySpawnedActors cfg host s).2 :=
    ⟨by rw [hcalls], fun x hx => Or.inl hx⟩
  obtain ⟨u, hu, u1, u2⟩ := batchLoop_fresh cfg host _ _ hw hN hnn hfresh 0 _ hsel2 hinv
  rw [Tick_batch cfg host dt s hact hcan hbatch, if_pos hok, hu]
  refine ⟨_, rfl, ?_, ?_⟩
  · simp only [u1, Nat.cast_zero, sub_zero]
  · simp only [u2, c5, Nat.cast_zero, sub_zero]

/-- Witness of C19: capacity 5, nothing tracked, three actors added. -/
theorem C19_batch_adds_half_of_free_capacity_witness :
    FreshHost (acceptingHost []) readyState.hostSpawnCalls
      (CleanCurrentlySpawnedActors batchConfig (acceptingHost [])
        readyState).2.CurrentlySpawnedActors ∧
    ((CleanCurrentlySpawnedActors batchConfig (acceptingHost [])
      readyState).2.CurrentlySpawnedActors.length : Int) < batchConfig.HowManyToSpawn ∧
    ∃ t, Tick batchConfig (acceptingHost []) 0 readyState = some t ∧
      t.CurrentlySpawnedActors.length =
        (CleanCurrentlySpawnedActors batchConfig (acceptingHost [])
          readyState).2.CurrentlySpawnedActors.length +
        ((batchConfig.HowManyToSpawn -
          ((CleanCurrentlySpawnedActors batchConfig (acceptingHost [])
            readyState).2.CurrentlySpawnedActors.length : Int)).toNat + 1) / 2 ∧
      attempts t.log = attempts readyState.log +
        ((batchConfig.HowManyToSpawn -
          ((CleanCurrentlySpawnedActors batchConfig (acceptingHost [])
            readyState).2.CurrentlySpawnedActors.length : Int)).toNat + 1) / 2 := by
  have hclean : (CleanCurrentlySpawnedActors batchConfig (acceptingHost [])
      readyState).2.CurrentlySpawnedActors = [] := by
    simp [CleanCurrentlySpawnedActors, cleanLoop, readyState, Spawner.initial]
  have hfresh : FreshHost (acceptingHost []) readyState.hostSpawnCalls
      (CleanCurrentlySpawnedActors batchConfig (acceptingHost [])
        readyState).2.CurrentlySpawnedActors := by
    rw [hclean]
    intro n _ cls loc rot
    refine ⟨n, rfl, by simp, fun m _ hm cls2 loc2 rot2 => ?_⟩
    simp [acceptingHost, hm]
  have hroom : ((CleanCurrentlySpawnedActors batchConfig (acceptingHost [])
      readyState).2.CurrentlySpawnedActors.length : Int) < batchConfig.HowManyToSpawn := by
    rw [hclean]
    decide
  exact ⟨hfresh, hroom,
    C19_batch_adds_half_of_free_capacity batchConfig (acceptingHost []) 0 readyState
      rfl rfl rfl rfl (by decide) (by decide) 
      (IndexChoiceOk_inOrder batchConfig (acceptingHost []) readyState rfl
        (by unfold IndexOk; decide))
      hfresh hroom⟩

/-- Witness of C12: default box with capacity 40. The loop is left after 36 calls, in
the iteration whose `Spacing.Z` is below the bound. -/
theorem C12_grid_fill_bounded_by_capacity_witness :
    (gridOffsets gridConfig40 gridConfig40.HowManyToSpawn.toNat
        (initialSpacing gridConfig40)).length = 36 ∧
    (gridOffsets gridConfig40 gridConfig40.HowManyToSpawn.toNat
        (initialSpacing gridConfig40)).length < gridConfig40.HowManyToSpawn.toNat ∧
    (spacingAt gridConfig40
      ((gridOffsets gridConfig40 gridConfig40.HowManyToSpawn.toNat
        (initialSpacing gridConfig40)).length + 1)
      (initialSpacing gridConfig40)).Z
        < -gridConfig40.LocalBoxExtent.Z + gridConfig40.SpacingInArray := by
  have hlen : (gridOffsets gridConfig40 gridConfig40.HowManyToSpawn.toNat
      (initialSpacing gridConfig40)).length = 36 := by
    rw [gridOffsets_box100_take gridConfig40 rfl rfl]
    rfl
  have hlt : (gridOffsets gridConfig40 gridConfig40.HowManyToSpawn.toNat
      (initialSpacing gridConfig40)).length < gridConfig40.HowManyToSpawn.toNat := by
    rw [hlen]
    decide
  exact ⟨hlen, hlt,
    (C12_grid_fill_bounded_by_capacity gridConfig40 (acceptingHost [])
      (Spawner.initial true)).2.2.2.2.1 hlt⟩

end SpawnerTool
